import Mathlib

/-!
# Model-registry storage resolution

A shallow embedding of `pkg/modelregistry/modelregistry.go` and
`pkg/predictor_source/processor/modelregistry.go`.

The registry REST client, the Kubernetes types and the continuation are external
collaborators.  The client is a record of response functions, every call made is
recorded in order, and a Go run-time panic (nil dereference, index out of range) is
an outcome of its own, distinct from a returned `error`.  A Go pointer is an `Option`,
`none` being nil: the receiver, its client, the custom URI, the continuation and every
record that `Execute` returns can be nil.
-/

/-! ## Go values -/

/-- A Go `error`: `leaf` is an error that wraps nothing (`fmt.Errorf` without `%w`,
or whatever the registry client returns), `wrapped` is `fmt.Errorf` with one `%w`. -/
inductive GoError where
  | leaf (message : String)
  | wrapped (message : String) (cause : GoError)
  deriving DecidableEq, Repr

/-- The method `Error()`. -/
def GoError.Error : GoError → String
  | .leaf s => s
  | .wrapped s _ => s

/-- The function `errors.Unwrap`. -/
def GoError.Unwrap : GoError → Option GoError
  | .leaf _ => none
  | .wrapped _ c => some c

deriving instance DecidableEq for Except

/-- Run-time panics of the Go program. -/
inductive Panic where
  | nilDereference
  | indexOutOfRange
  deriving DecidableEq, Repr

/-- How a Go call ends: it returns a value with a nil error (`ret`), it returns a
non-nil error (`fail`), or it panics. -/
inductive Outcome (α : Type) where
  | ret (a : α)
  | fail (e : GoError)
  | panic (p : Panic)
  deriving DecidableEq, Repr

/-- A run: the external calls made, oldest first, and how the run ended. -/
structure Run (ε α : Type) where
  calls : List ε
  outcome : Outcome α
  deriving DecidableEq, Repr

namespace Run

variable {ε ε' α β : Type}

/-- Sequencing: an error or a panic ends the run (`if err != nil { return nil, err }`). -/
def bind (x : Run ε α) (f : α → Run ε β) : Run ε β :=
  match x.outcome with
  | .ret a => ⟨x.calls ++ (f a).calls, (f a).outcome⟩
  | .fail e => ⟨x.calls, .fail e⟩
  | .panic p => ⟨x.calls, .panic p⟩

instance : Monad (Run ε) where
  pure a := ⟨[], .ret a⟩
  bind := Run.bind

/-- Return a non-nil error. -/
def fail (e : GoError) : Run ε α := ⟨[], .fail e⟩

/-- Dereference of a pointer: `*p`, or a field access through `p`. -/
def deref : Option α → Run ε α
  | some a => ⟨[], .ret a⟩
  | none => ⟨[], .panic .nilDereference⟩

/-- Indexing of a slice: `xs[i]`. -/
def index (xs : List α) (i : Nat) : Run ε α :=
  match xs[i]? with
  | some a => ⟨[], .ret a⟩
  | none => ⟨[], .panic .indexOutOfRange⟩

/-- An external call `c` answering `r`: a value together with a nil error, or a
non-nil error.  For the generated client the value is a pointer, which may be nil. -/
def call (c : ε) (r : Except GoError α) : Run ε α :=
  match r with
  | .ok a => ⟨[c], .ret a⟩
  | .error e => ⟨[c], .fail e⟩

/-- An external call `c` that answers `a` and returns no error of its own. -/
def emit (c : ε) (a : α) : Run ε α := ⟨[c], .ret a⟩

/-- The Go statement `v, err := f(...)`: the error returned by the callee is a value
in the hands of the caller. -/
def result (x : Run ε α) : Run ε (Except GoError α) :=
  match x.outcome with
  | .ret a => ⟨x.calls, .ret (.ok a)⟩
  | .fail e => ⟨x.calls, .ret (.error e)⟩
  | .panic p => ⟨x.calls, .panic p⟩

/-- The same run with its calls seen as events of a larger kind. -/
def liftCalls (f : ε → ε') (x : Run ε α) : Run ε' α := ⟨x.calls.map f, x.outcome⟩

/-- A valid pointer is read at no cost. -/
theorem deref_some_bind (a : α) (f : α → Run ε β) : Run.bind (Run.deref (some a)) f = f a := by
  simp [Run.bind, Run.deref]

/-- A nil pointer ends the run. -/
theorem deref_none_bind (f : α → Run ε β) :
    Run.bind (Run.deref (none : Option α)) f = ⟨[], .panic .nilDereference⟩ := by
  simp [Run.bind, Run.deref]

/-- Sequencing goes into both branches of a test. -/
theorem bind_ite (c : Prop) [Decidable c] (x y : Run ε α) (f : α → Run ε β) :
    Run.bind (if c then x else y) f = if c then Run.bind x f else Run.bind y f := by
  split <;> rfl

/-- A returned error ends the run. -/
theorem fail_bind (e : GoError) (f : α → Run ε β) :
    Run.bind (Run.fail e : Run ε α) f = Run.fail e := by
  simp [Run.bind, Run.fail]

end Run

/-! ## The registry (package `openapi`, external) -/

/-- The query option `OrderBy`. -/
inductive OrderByField where
  | ORDERBYFIELD_CREATE_TIME
  | ORDERBYFIELD_LAST_UPDATE_TIME
  | ORDERBYFIELD_ID
  deriving DecidableEq, Repr

/-- The query option `SortOrder`. -/
inductive SortOrder where
  | SORTORDER_ASC
  | SORTORDER_DESC
  deriving DecidableEq, Repr

/-- The record `openapi.RegisteredModel`; `Id` is a `*string`. -/
structure RegisteredModel where
  Id : Option String
  Name : Option String
  deriving DecidableEq, Repr

/-- The record `openapi.ModelVersion`; `Id` is a `*string`, the creation time is
kept as a number. -/
structure ModelVersion where
  Id : Option String
  Name : Option String
  CreateTimeSinceEpoch : Nat
  deriving DecidableEq, Repr

/-- The record `openapi.ModelArtifact`; `Uri` is a `*string`. -/
structure ModelArtifact where
  Id : Option String
  Name : Option String
  Uri : Option String
  CreateTimeSinceEpoch : Nat
  deriving DecidableEq, Repr

/-- The record `openapi.DocArtifact`, the other artifact kind. -/
structure DocArtifact where
  Id : Option String
  Uri : Option String
  deriving DecidableEq, Repr

/-- The union `openapi.Artifact`: one pointer for each artifact kind. -/
structure Artifact where
  ModelArtifact : Option ModelArtifact
  DocArtifact : Option DocArtifact
  deriving DecidableEq, Repr

/-- The record `openapi.ModelVersionList`; `Size` is an `int32` sent by the server. -/
structure ModelVersionList where
  Items : List ModelVersion
  Size : Int
  deriving DecidableEq, Repr

/-- The record `openapi.ArtifactList`; `Size` is an `int32` sent by the server. -/
structure ArtifactList where
  Items : List Artifact
  Size : Int
  deriving DecidableEq, Repr

/-- The calls of `ModelRegistryServiceAPI` with the arguments they are sent with. -/
inductive RegistryCall where
  | FindRegisteredModel (name : String)
  | FindModelVersion (name : String) (parentResourceID : String)
  | GetRegisteredModelVersions (registeredmodelId : String) (orderBy : OrderByField)
      (sortOrder : SortOrder)
  | GetModelArtifact (modelartifactId : String)
  | GetModelVersionArtifacts (modelversionId : String) (orderBy : OrderByField)
      (sortOrder : SortOrder)
  deriving DecidableEq, Repr

/-- The client `openapi.APIClient`: what `Execute` returns for each request, a
non-nil error or else a pointer to the decoded record, nil when the answer has an
empty or null body. -/
structure APIClient where
  FindRegisteredModel : String → Except GoError (Option RegisteredModel)
  FindModelVersion : String → String → Except GoError (Option ModelVersion)
  GetRegisteredModelVersions : String → OrderByField → SortOrder →
    Except GoError (Option ModelVersionList)
  GetModelArtifact : String → Except GoError (Option ModelArtifact)
  GetModelVersionArtifacts : String → OrderByField → SortOrder →
    Except GoError (Option ArtifactList)

open OrderByField SortOrder

/-! ## Package `os` -/

/-- The process environment: a partial map from variable names to values. -/
abbrev Environ := String → Option String

/-! ## Package `modelregistry` -/

namespace modelregistry

/-- The struct `ModelRegistryProcessor`; `Client` is a `*openapi.APIClient`. -/
structure ModelRegistryProcessor where
  Client : Option APIClient

/-- The method `FindModel` of `pkg/modelregistry/modelregistry.go`, on the receiver
`m`, a `*ModelRegistryProcessor`; the result is the pointer `*openapi.ModelArtifact`.
The parameter `artifactId` is not read. -/
def ModelRegistryProcessor.FindModel (m : Option ModelRegistryProcessor) (modelName : String)
    (versionName : Option String) (_artifactId : Option String) :
    Run RegistryCall (Option ModelArtifact) := do
  let receiver ← Run.deref m
  let client ← Run.deref receiver.Client
  let model ← Run.call (.FindRegisteredModel modelName) (client.FindRegisteredModel modelName)
  let version ←
    match versionName with
    | some vn => do
      let modelRecord ← Run.deref model
      let parent ← Run.deref modelRecord.Id
      Run.call (.FindModelVersion vn parent) (client.FindModelVersion vn parent)
    | none => do
      let modelRecord ← Run.deref model
      let id ← Run.deref modelRecord.Id
      let versions ← Run.call
        (.GetRegisteredModelVersions id ORDERBYFIELD_CREATE_TIME SORTORDER_DESC)
        (client.GetRegisteredModelVersions id ORDERBYFIELD_CREATE_TIME SORTORDER_DESC)
      let versionList ← Run.deref versions
      if versionList.Size = 0 then
        Run.fail (.leaf ("no versions associated to registered model " ++ modelName))
      else do
        let first ← Run.index versionList.Items 0
        pure (some first)
  let versionRecord ← Run.deref version
  let versionId ← Run.deref versionRecord.Id
  let artifacts ← Run.call
    (.GetModelVersionArtifacts versionId ORDERBYFIELD_CREATE_TIME SORTORDER_DESC)
    (client.GetModelVersionArtifacts versionId ORDERBYFIELD_CREATE_TIME SORTORDER_DESC)
  let artifactList ← Run.deref artifacts
  if artifactList.Size = 0 then
    Run.fail (.leaf ("no artifacts associated to model version " ++ versionId))
  else do
    let first ← Run.index artifactList.Items 0
    let modelArtifact := first.ModelArtifact
    if modelArtifact = none then
      Run.fail (.leaf ("no model artifact found for model version " ++ versionId))
    else
      pure modelArtifact

/-- The function `getEnvString` of `pkg/modelregistry/modelregistry.go`; `env key` is
`os.LookupEnv(key)`. -/
def getEnvString (env : Environ) (key : String) (defaultValue : String) : String :=
  match env key with
  | some val => val
  | none => defaultValue

end modelregistry

/-! ## Package `strings` (Go standard library) -/

namespace strings

/-- The function `strings.TrimPrefix` for a prefix of one character. -/
def TrimPrefix (s : String) (pfx : Char) : String :=
  match s.data with
  | c :: rest => if c = pfx then ⟨rest⟩ else s
  | [] => s

/-- The text before and after the first `sep`, when there is one (`strings.Index`
followed by the two slicings of `genSplit`). -/
def cutAt (sep : Char) : List Char → Option (List Char × List Char)
  | [] => none
  | c :: rest =>
    if c = sep then some ([], rest)
    else
      match cutAt sep rest with
      | some (before, after) => some (c :: before, after)
      | none => none

/-- The loop of `genSplit` on characters, for `n` substrings at most. -/
def splitChars (sep : Char) : Nat → List Char → List (List Char)
  | 0, _ => []
  | 1, s => [s]
  | n + 2, s =>
    match cutAt sep s with
    | some (before, after) => before :: splitChars sep (n + 1) after
    | none => [s]

/-- The function `strings.SplitN` for a separator of one character and `n ≥ 0`:
at most `n` substrings, the last one being the unsplit remainder. -/
def SplitN (s : String) (sep : Char) (n : Nat) : List String :=
  (splitChars sep n s.data).map String.mk

end strings

/-! ## Package `processor` -/

namespace processor

/-- The constant `modelRegistryBaseUrl`. -/
def modelRegistryBaseUrl : String := "MODEL_REGISTRY_BASE_URL"
/-- The constant `defaultModelRegistryBaseUrl`. -/
def defaultModelRegistryBaseUrl : String :=
  "modelregistry-sample.model-registry.svc.cluster.local:8080"
/-- The constant `modelRegistryScheme`. -/
def modelRegistryScheme : String := "MODEL_REGISTRY_SCHEME"
/-- The constant `defaultModelRegistryScheme`. -/
def defaultModelRegistryScheme : String := "http"

/-- The function `getEnvString`; `env key` is `os.LookupEnv(key)`. -/
def getEnvString (env : Environ) (key : String) (defaultValue : String) : String :=
  match env key with
  | some val => val
  | none => defaultValue

/-- The two fields of `openapi.Configuration` that are set from the environment. -/
structure Configuration where
  Host : String
  Scheme : String
  deriving DecidableEq, Repr

/-- The configuration built by `NewModelRegistryProcessorFromEnv`. -/
def NewModelRegistryProcessorFromEnv (env : Environ) : Configuration :=
  { Host := getEnvString env modelRegistryBaseUrl defaultModelRegistryBaseUrl
    Scheme := getEnvString env modelRegistryScheme defaultModelRegistryScheme }

/-- The struct `ModelRegistryProcessor`; `Client` is a `*openapi.APIClient`. -/
structure ModelRegistryProcessor where
  Client : Option APIClient

/-- The method `FindModel` of `pkg/predictor_source/processor/modelregistry.go`, on the
receiver `m`, a `*ModelRegistryProcessor`; the result is the pointer
`*openapi.ModelArtifact`. -/
def ModelRegistryProcessor.FindModel (m : Option ModelRegistryProcessor) (modelName : String)
    (versionName : Option String) (artifactId : Option String) :
    Run RegistryCall (Option ModelArtifact) := do
  let receiver ← Run.deref m
  let client ← Run.deref receiver.Client
  let model ← Run.call (.FindRegisteredModel modelName) (client.FindRegisteredModel modelName)
  let version ←
    match versionName with
    | some vn => do
      let modelRecord ← Run.deref model
      let parent ← Run.deref modelRecord.Id
      Run.call (.FindModelVersion vn parent) (client.FindModelVersion vn parent)
    | none => do
      let modelRecord ← Run.deref model
      let id ← Run.deref modelRecord.Id
      let versions ← Run.call
        (.GetRegisteredModelVersions id ORDERBYFIELD_CREATE_TIME SORTORDER_DESC)
        (client.GetRegisteredModelVersions id ORDERBYFIELD_CREATE_TIME SORTORDER_DESC)
      let versionList ← Run.deref versions
      if versionList.Size = 0 then
        Run.fail (.leaf ("no versions associated to registered model " ++ modelName))
      else do
        let first ← Run.index versionList.Items 0
        pure (some first)
  match artifactId with
  | some aid =>
    Run.call (.GetModelArtifact aid) (client.GetModelArtifact aid)
  | none => do
    let versionRecord ← Run.deref version
    let versionId ← Run.deref versionRecord.Id
    let artifacts ← Run.call
      (.GetModelVersionArtifacts versionId ORDERBYFIELD_CREATE_TIME SORTORDER_DESC)
      (client.GetModelVersionArtifacts versionId ORDERBYFIELD_CREATE_TIME SORTORDER_DESC)
    let artifactList ← Run.deref artifacts
    let modelArtifacts := (artifactList.Items.map (fun a => a.ModelArtifact)).filter
      (fun p => p.isSome)
    if modelArtifacts.length = 0 then
      Run.fail (.leaf ("no model artifacts associated to model version " ++ versionId))
    else
      Run.index modelArtifacts 0

/-! ### Kubernetes and KServe values (external) -/

/-- The struct `types.NamespacedName`. -/
structure NamespacedName where
  Namespace : String
  Name : String
  deriving DecidableEq, Repr

/-- The fields of `metav1.ObjectMeta` carried along. -/
structure ObjectMeta where
  Name : String
  Namespace : String
  Annotations : List (String × String)
  deriving DecidableEq, Repr

/-- The struct `v1beta1.ModelFormat`. -/
structure ModelFormat where
  Name : String
  Version : Option String
  deriving DecidableEq, Repr

/-- The struct `v1beta1.ModelSpec`; `StorageURI` is a `*string`. -/
structure ModelSpec where
  ModelFormat : ModelFormat
  Runtime : Option String
  StorageURI : Option String
  ProtocolVersion : Option String
  deriving DecidableEq, Repr

/-- The struct `v1beta1.PredictorSpec`; `Model` is a `*ModelSpec`, nil when the
predictor is given through another framework field. -/
structure PredictorSpec where
  Model : Option ModelSpec
  ServiceAccountName : String
  MinReplicas : Option Nat
  deriving DecidableEq, Repr

/-- The struct `v1beta1.InferenceServiceSpec`. -/
structure InferenceServiceSpec where
  Predictor : PredictorSpec
  deriving DecidableEq, Repr

/-- The struct `v1beta1.InferenceService`. -/
structure InferenceService where
  ObjectMeta : ObjectMeta
  Spec : InferenceServiceSpec
  deriving DecidableEq, Repr

/-- The inference services in memory, by address. -/
abbrev Heap := List InferenceService

/-- A `*v1beta1.InferenceService`: an address; one outside the heap is the nil
pointer. -/
abbrev Ptr := Nat

/-- The generated method `DeepCopy`: nil for nil, else the address of a fresh object
equal to the one copied. -/
def DeepCopy (heap : Heap) (p : Ptr) : Heap × Ptr :=
  match heap[p]? with
  | none => (heap, p)
  | some o => (heap ++ [o], heap.length)

/-- The fields of `url.URL` that are read. -/
structure URL where
  Host : String
  Path : String
  deriving DecidableEq, Repr

/-- The five results of `ProcessInferenceServiceStorage` and of its continuation;
`none` is nil, and the default of each field is the zero value of its Go type. -/
structure StorageResult where
  secretKey : Option String := none
  parameters : Option (List (String × String)) := none
  modelPath : String := ""
  schemaPath : Option String := none
  err : Option GoError := none
  deriving DecidableEq, Repr

/-- What a run of `ProcessInferenceServiceStorage` does outside itself. -/
inductive Event where
  | registry (c : RegistryCall)
  | continuation (inferenceService : InferenceService) (nname : NamespacedName)
  deriving DecidableEq, Repr

/-- The method `ProcessInferenceServiceStorage`, on the receiver `m`.  The custom URI
and the continuation are pointers; the inference service is the object at address
`inferenceService` of `heap`, and the result comes with the heap as it stands on
return; the continuation is given the object its argument points to.
`&tokens[i]` is read under the guard on `len(tokens)` that makes `i` valid. -/
def ModelRegistryProcessor.ProcessInferenceServiceStorage (m : Option ModelRegistryProcessor)
    (customUri : Option URL) (heap : Heap) (inferenceService : Ptr) (nname : NamespacedName)
    (processInferenceServiceStorage :
      Option (InferenceService → NamespacedName → StorageResult)) :
    Run Event (StorageResult × Heap) := do
  let uri ← Run.deref customUri
  let tokens := strings.SplitN (strings.TrimPrefix uri.Path '/') '/' 2
  if tokens.length = 0 ∨ tokens.length > 2 then
    pure ({ err := some (.leaf ("invalid model registry URI, use like " ++
      "model-registry://\x7bregisteredModelName\x7d/\x7bversionName\x7d/\x7bartifactId\x7d")) },
      heap)
  else do
    let modelName := uri.Host
    let versionName : Option String := if tokens.length = 1 then tokens[0]? else none
    let artifactId : Option String := if tokens.length = 2 then tokens[1]? else none
    let found ← ((ModelRegistryProcessor.FindModel m modelName versionName
      artifactId).liftCalls Event.registry).result
    match found with
    | .error err1 =>
      pure ({ err := some (.wrapped
        ("unable to find model " ++ modelName ++ ": " ++ err1.Error) err1) }, heap)
    | .ok modelArtifact =>
      let (heap, transformedInferenceService) := DeepCopy heap inferenceService
      let object ← Run.deref heap[transformedInferenceService]?
      let model ← Run.deref object.Spec.Predictor.Model
      let artifact ← Run.deref modelArtifact
      let object := { object with
        Spec.Predictor.Model := some { model with StorageURI := artifact.Uri } }
      let heap := heap.set transformedInferenceService object
      let continuation ← Run.deref processInferenceServiceStorage
      let results ← Run.emit (.continuation object nname) (continuation object nname)
      pure (results, heap)

end processor

/-! ## Vocabulary of the statements -/

/-- Lines 40 to 66 of `pkg/modelregistry/modelregistry.go`, which are lines 85 to 111
of `pkg/predictor_source/processor/modelregistry.go`, for a receiver with the client
`client`: the model is looked up, then the version is found by name or taken first from
the listing.  The result is the pointer `version`. -/
def resolveVersion (client : APIClient) (modelName : String) (versionName : Option String) :
    Run RegistryCall (Option ModelVersion) := do
  let model ← Run.call (.FindRegisteredModel modelName) (client.FindRegisteredModel modelName)
  match versionName with
  | some vn => do
    let modelRecord ← Run.deref model
    let parent ← Run.deref modelRecord.Id
    Run.call (.FindModelVersion vn parent) (client.FindModelVersion vn parent)
  | none => do
    let modelRecord ← Run.deref model
    let id ← Run.deref modelRecord.Id
    let versions ← Run.call
      (.GetRegisteredModelVersions id ORDERBYFIELD_CREATE_TIME SORTORDER_DESC)
      (client.GetRegisteredModelVersions id ORDERBYFIELD_CREATE_TIME SORTORDER_DESC)
    let versionList ← Run.deref versions
    if versionList.Size = 0 then
      Run.fail (.leaf ("no versions associated to registered model " ++ modelName))
    else do
      let first ← Run.index versionList.Items 0
      pure (some first)

/-- Lines 68 to 85 of `pkg/modelregistry/modelregistry.go`: the artifacts of the
version are listed and the first entry is taken. -/
def modelregistry.firstArtifact (client : APIClient) (version : Option ModelVersion) :
    Run RegistryCall (Option ModelArtifact) := do
  let versionRecord ← Run.deref version
  let versionId ← Run.deref versionRecord.Id
  let artifacts ← Run.call
    (.GetModelVersionArtifacts versionId ORDERBYFIELD_CREATE_TIME SORTORDER_DESC)
    (client.GetModelVersionArtifacts versionId ORDERBYFIELD_CREATE_TIME SORTORDER_DESC)
  let artifactList ← Run.deref artifacts
  if artifactList.Size = 0 then
    Run.fail (.leaf ("no artifacts associated to model version " ++ versionId))
  else do
    let first ← Run.index artifactList.Items 0
    let modelArtifact := first.ModelArtifact
    if modelArtifact = none then
      Run.fail (.leaf ("no model artifact found for model version " ++ versionId))
    else
      pure modelArtifact

/-- Lines 113 to 143 of `pkg/predictor_source/processor/modelregistry.go`: the
artifact is fetched by id, or the artifacts of the version are listed, filtered and
the first one left is taken. -/
def processor.artifactFor (client : APIClient) (version : Option ModelVersion)
    (artifactId : Option String) : Run RegistryCall (Option ModelArtifact) :=
  match artifactId with
  | some aid =>
    Run.call (.GetModelArtifact aid) (client.GetModelArtifact aid)
  | none => do
    let versionRecord ← Run.deref version
    let versionId ← Run.deref versionRecord.Id
    let artifacts ← Run.call
      (.GetModelVersionArtifacts versionId ORDERBYFIELD_CREATE_TIME SORTORDER_DESC)
      (client.GetModelVersionArtifacts versionId ORDERBYFIELD_CREATE_TIME SORTORDER_DESC)
    let artifactList ← Run.deref artifacts
    let modelArtifacts := (artifactList.Items.map (fun a => a.ModelArtifact)).filter
      (fun p => p.isSome)
    if modelArtifacts.length = 0 then
      Run.fail (.leaf ("no model artifacts associated to model version " ++ versionId))
    else
      Run.index modelArtifacts 0

/-- The version that `resolveVersion` settles on: the one found by name under the
model, or the first one listed under a non-zero `Size`. -/
def VersionResolved (client : APIClient) (model : RegisteredModel) (versionName : Option String)
    (version : ModelVersion) : Prop :=
  match versionName with
  | some vn => ∃ id, model.Id = some id ∧ client.FindModelVersion vn id = .ok (some version)
  | none => ∃ id versions, model.Id = some id ∧
      client.GetRegisteredModelVersions id ORDERBYFIELD_CREATE_TIME SORTORDER_DESC
        = .ok (some versions) ∧
      versions.Size ≠ 0 ∧ versions.Items[0]? = some version

/-- Responses that are coherent: an answer with a nil error carries a record, every
model and version record carries an `Id`, and a list with a non-zero `Size` has an
item. -/
def APIClient.WellFormed (client : APIClient) : Prop :=
  (∀ name, client.FindRegisteredModel name ≠ .ok none) ∧
  (∀ name parent, client.FindModelVersion name parent ≠ .ok none) ∧
  (∀ id orderBy sortOrder, client.GetRegisteredModelVersions id orderBy sortOrder ≠ .ok none) ∧
  (∀ id, client.GetModelArtifact id ≠ .ok none) ∧
  (∀ id orderBy sortOrder, client.GetModelVersionArtifacts id orderBy sortOrder ≠ .ok none) ∧
  (∀ name model, client.FindRegisteredModel name = .ok (some model) → model.Id ≠ none) ∧
  (∀ name parent version, client.FindModelVersion name parent = .ok (some version) →
    version.Id ≠ none) ∧
  (∀ id orderBy sortOrder versions,
    client.GetRegisteredModelVersions id orderBy sortOrder = .ok (some versions) →
      (versions.Size ≠ 0 → versions.Items ≠ []) ∧ ∀ v ∈ versions.Items, v.Id ≠ none) ∧
  (∀ id orderBy sortOrder artifacts,
    client.GetModelVersionArtifacts id orderBy sortOrder = .ok (some artifacts) →
      artifacts.Size ≠ 0 → artifacts.Items ≠ [])

/-- The listing is in the order asked for: creation time, descending. -/
def SortedByCreateTimeDesc (versions : List ModelVersion) : Prop :=
  versions.Pairwise (fun a b => b.CreateTimeSinceEpoch ≤ a.CreateTimeSinceEpoch)

/-- The reading of "latest by creation time, whatever the list order" for a variant of
`FindModel` whose calls, with `versionName` and `artifactId` unset, are `calls`:
whenever the model lookup succeeds and the version listing returns a non-empty list,
the artifacts are listed for an item whose creation time is maximal. -/
def ResolvesLatestCreated (calls : APIClient → String → List RegistryCall) : Prop :=
  ∀ (client : APIClient) (modelName : String) (model : RegisteredModel) (id : String)
    (versions : ModelVersionList),
    client.FindRegisteredModel modelName = .ok (some model) → model.Id = some id →
    client.GetRegisteredModelVersions id ORDERBYFIELD_CREATE_TIME SORTORDER_DESC
      = .ok (some versions) →
    versions.Items ≠ [] →
    ∃ v ∈ versions.Items,
      (∀ w ∈ versions.Items, w.CreateTimeSinceEpoch ≤ v.CreateTimeSinceEpoch) ∧
      ∃ vid, v.Id = some vid ∧
        RegistryCall.GetModelVersionArtifacts vid ORDERBYFIELD_CREATE_TIME SORTORDER_DESC
          ∈ calls client modelName

namespace processor

/-- Lines 51 to 66 of `ProcessInferenceServiceStorage` on their own: the parse error,
or the triple `modelName`, `versionName`, `artifactId` that `FindModel` is called
with. -/
def parseCustomUri (customUri : URL) : Except GoError (String × Option String × Option String) :=
  let tokens := strings.SplitN (strings.TrimPrefix customUri.Path '/') '/' 2
  if tokens.length = 0 ∨ tokens.length > 2 then
    .error (.leaf ("invalid model registry URI, use like " ++
      "model-registry://\x7bregisteredModelName\x7d/\x7bversionName\x7d/\x7bartifactId\x7d"))
  else
    let modelName := customUri.Host
    let versionName : Option String := if tokens.length = 1 then tokens[0]? else none
    let artifactId : Option String := if tokens.length = 2 then tokens[1]? else none
    .ok (modelName, versionName, artifactId)

/-- Lines 68 to 80 of `ProcessInferenceServiceStorage` on their own, after `FindModel`
has ended in `found`: the error is wrapped, or the copy is patched and handed to the
continuation. -/
def forward (found : Outcome (Option ModelArtifact)) (modelName : String) (heap : Heap)
    (inferenceService : Ptr) (nname : NamespacedName)
    (processInferenceServiceStorage :
      Option (InferenceService → NamespacedName → StorageResult)) :
    Run Event (StorageResult × Heap) :=
  match found with
  | .panic p => ⟨[], .panic p⟩
  | .fail err1 =>
    pure ({ err := some (.wrapped ("unable to find model " ++ modelName ++ ": " ++ err1.Error)
      err1) }, heap)
  | .ret modelArtifact => do
    let (heap, transformedInferenceService) := DeepCopy heap inferenceService
    let object ← Run.deref heap[transformedInferenceService]?
    let model ← Run.deref object.Spec.Predictor.Model
    let artifact ← Run.deref modelArtifact
    let object := { object with
      Spec.Predictor.Model := some { model with StorageURI := artifact.Uri } }
    let heap := heap.set transformedInferenceService object
    let continuation ← Run.deref processInferenceServiceStorage
    let results ← Run.emit (.continuation object nname) (continuation object nname)
    pure (results, heap)

/-- The pointers that the loop of lines 129 to 134 keeps: the non-nil `ModelArtifact`
fields, in list order. -/
def modelArtifactsOf (artifacts : ArtifactList) : List (Option ModelArtifact) :=
  (artifacts.Items.map (fun a => a.ModelArtifact)).filter (fun p => p.isSome)

/-- Whether the event is a call of the continuation. -/
def Event.isContinuation : Event → Bool
  | .continuation _ _ => true
  | .registry _ => false

end processor

/-! ## A sample registry -/

namespace sample

open processor

/-- The registered model "my-model". -/
def model : RegisteredModel := { Id := some "1", Name := some "my-model" }

/-- Version "v1", created at time 1. -/
def v1 : ModelVersion := { Id := some "v1-id", Name := some "v1", CreateTimeSinceEpoch := 1 }
/-- Version "v2", created at time 3. -/
def v2 : ModelVersion := { Id := some "v2-id", Name := some "v2", CreateTimeSinceEpoch := 3 }
/-- Version "v3", created at time 2. -/
def v3 : ModelVersion := { Id := some "v3-id", Name := some "v3", CreateTimeSinceEpoch := 2 }

/-- The model artifact stored for the version with identifier `vid`. -/
def artifactOf (vid : String) : ModelArtifact :=
  { Id := some ("art-" ++ vid), Name := some "model", Uri := some ("s3://bucket/" ++ vid),
    CreateTimeSinceEpoch := 5 }

/-- The model artifact with identifier "art-42". -/
def art42 : ModelArtifact :=
  { Id := some "art-42", Name := some "model", Uri := some "s3://bucket/path",
    CreateTimeSinceEpoch := 4 }

/-- A documentation artifact, which carries no model-artifact payload. -/
def doc : Artifact := { ModelArtifact := none, DocArtifact := some ⟨some "doc-1", none⟩ }

/-- The error of a lookup that finds nothing. -/
def notFound : GoError := .leaf "404 Not Found"

/-- A registry holding "my-model" with the versions v1, v2, v3, which it lists in
that order whatever order is asked for; each version has a documentation artifact
listed before its model artifact. -/
def registry : APIClient where
  FindRegisteredModel name :=
    if name = "my-model" then .ok (some model) else .error notFound
  FindModelVersion name parent :=
    if parent = "1" ∧ name = "v1" then .ok (some v1)
    else if parent = "1" ∧ name = "v2" then .ok (some v2)
    else if parent = "1" ∧ name = "v3" then .ok (some v3)
    else .error notFound
  GetRegisteredModelVersions id _ _ :=
    if id = "1" then .ok (some (ModelVersionList.mk [v1, v2, v3] 3)) else .error notFound
  GetModelArtifact id := if id = "art-42" then .ok (some art42) else .error notFound
  GetModelVersionArtifacts vid _ _ :=
    .ok (some (ArtifactList.mk [doc, Artifact.mk (some (artifactOf vid)) none] 2))

/-- The same registry answering the version listing with a non-zero `Size` and no
item. -/
def sizeWithoutItems : APIClient :=
  { registry with
    GetRegisteredModelVersions := fun _ _ _ =>
      Except.ok (some (ModelVersionList.mk [] 1)) }

/-- The same registry listing the model artifact of a version before its
documentation artifact. -/
def modelArtifactFirst : APIClient :=
  { registry with
    GetModelVersionArtifacts := fun vid _ _ =>
      Except.ok (some (ArtifactList.mk [Artifact.mk (some (artifactOf vid)) none, doc] 2)) }

/-- The same registry listing the versions by creation time, latest first. -/
def latestFirst : APIClient :=
  { registry with
    GetRegisteredModelVersions := fun _ _ _ =>
      Except.ok (some (ModelVersionList.mk [v2, v3, v1] 3)) }

/-- The same registry answering the model lookup with a record that has no `Id`. -/
def modelWithoutId : APIClient :=
  { registry with
    FindRegisteredModel := fun _ =>
      Except.ok (some (RegisteredModel.mk none (some "my-model"))) }

/-- The same registry answering the version lookup with a record that has no `Id`. -/
def versionWithoutId : APIClient :=
  { registry with
    FindModelVersion := fun _ _ =>
      Except.ok (some (ModelVersion.mk none (some "v1") 1)) }

/-- The same registry answering the artifact listing with a non-zero `Size` and no
item. -/
def artifactSizeWithoutItems : APIClient :=
  { registry with
    GetModelVersionArtifacts := fun _ _ _ => Except.ok (some (ArtifactList.mk [] 1)) }

/-- The same registry answering the model lookup with a nil record and a nil error. -/
def nilModel : APIClient :=
  { registry with FindRegisteredModel := fun _ => Except.ok none }

/-- The same registry answering the version lookup with a nil record and a nil
error. -/
def nilVersion : APIClient :=
  { registry with FindModelVersion := fun _ _ => Except.ok none }

/-- The same registry answering the version listing with a nil list and a nil error. -/
def nilVersionList : APIClient :=
  { registry with GetRegisteredModelVersions := fun _ _ _ => Except.ok none }

/-- The same registry answering the artifact listing with a nil list and a nil
error. -/
def nilArtifactList : APIClient :=
  { registry with GetModelVersionArtifacts := fun _ _ _ => Except.ok none }

/-- The same registry answering the artifact lookup with a nil record and a nil
error. -/
def nilArtifact : APIClient :=
  { registry with GetModelArtifact := fun _ => Except.ok none }

/-- The model spec of the sample inference service. -/
def modelSpec : ModelSpec :=
  { ModelFormat := ⟨"sklearn", none⟩, Runtime := none,
    StorageURI := some "model-registry://my-model/v1", ProtocolVersion := none }

/-- An inference service whose predictor has the model spec `model`. -/
def isvcWith (model : Option ModelSpec) : InferenceService :=
  { ObjectMeta := { Name := "isvc", Namespace := "ns", Annotations := [("team", "ml")] },
    Spec := { Predictor := { Model := model, ServiceAccountName := "sa",
                             MinReplicas := some 1 } } }

/-- An inference service whose predictor has a model spec. -/
def isvc : InferenceService := isvcWith (some modelSpec)

/-- An inference service whose predictor has no model spec. -/
def isvcWithoutModel : InferenceService := isvcWith none

/-- The sample inference service with the storage URI `uri`. -/
def isvcAt (uri : Option String) : InferenceService :=
  isvcWith (some { modelSpec with StorageURI := uri })

/-- The namespaced name of the sample inference service. -/
def nname : NamespacedName := { Namespace := "ns", Name := "isvc" }

/-- A continuation reporting the storage URI it was given as the model path. -/
def continuation (inferenceService : InferenceService) (_nname : NamespacedName) :
    StorageResult :=
  { secretKey := some "secret", parameters := some [("type", "s3")],
    modelPath := ((inferenceService.Spec.Predictor.Model.bind (fun ms => ms.StorageURI)).getD ""),
    schemaPath := none, err := none }

/-- An environment in which only the scheme variable is set, to "http". -/
def schemeSetToHttp : Environ := fun key =>
  if key = "MODEL_REGISTRY_SCHEME" then some "http" else none

/-- An environment in which the host variable is set to the empty string. -/
def hostSetToEmpty : Environ := fun key =>
  if key = "MODEL_REGISTRY_BASE_URL" then some "" else none

/-- The empty environment. -/
def noEnv : Environ := fun _ => none

end sample

/-! ## Lemmas on runs -/

namespace Run

variable {ε α β : Type}

/-- The bind of the `do` notation is `Run.bind`. -/
theorem bind_eq (x : Run ε α) (f : α → Run ε β) : x >>= f = Run.bind x f := rfl

/-- A pure run makes no call and returns. -/
theorem pure_eq (a : α) : (pure a : Run ε α) = ⟨[], .ret a⟩ := rfl

/-- Sequencing is associative. -/
theorem bind_assoc {γ : Type} (x : Run ε α) (f : α → Run ε β) (g : β → Run ε γ) :
    Run.bind (Run.bind x f) g = Run.bind x (fun a => Run.bind (f a) g) := by
  obtain ⟨xc, xo⟩ := x
  cases xo with
  | ret a =>
    simp only [Run.bind]
    generalize f a = y
    obtain ⟨yc, yo⟩ := y
    cases yo <;> simp
  | fail e => simp [Run.bind]
  | panic p => simp [Run.bind]

/-- A run whose first part returns goes on with the second part. -/
theorem bind_ret (x : Run ε α) (f : α → Run ε β) (a : α) (h : x.outcome = .ret a) :
    Run.bind x f = ⟨x.calls ++ (f a).calls, (f a).outcome⟩ := by
  simp [Run.bind, h]

/-- The outcome after a first part that returns. -/
theorem bind_outcome_ret (x : Run ε α) (f : α → Run ε β) (a : α) (h : x.outcome = .ret a) :
    (Run.bind x f).outcome = (f a).outcome := by
  simp [Run.bind, h]

/-- The calls after a first part that returns. -/
theorem bind_calls_ret (x : Run ε α) (f : α → Run ε β) (a : α) (h : x.outcome = .ret a) :
    (Run.bind x f).calls = x.calls ++ (f a).calls := by
  simp [Run.bind, h]

/-- An error in the first part ends the run. -/
theorem bind_outcome_fail (x : Run ε α) (f : α → Run ε β) (e : GoError)
    (h : x.outcome = .fail e) : (Run.bind x f).outcome = .fail e := by
  simp [Run.bind, h]

/-- A panic in the first part ends the run. -/
theorem bind_outcome_panic (x : Run ε α) (f : α → Run ε β) (p : Panic)
    (h : x.outcome = .panic p) : (Run.bind x f).outcome = .panic p := by
  simp [Run.bind, h]

/-- A bound run returns only if its first part returns. -/
theorem bind_outcome_eq_ret (x : Run ε α) (f : α → Run ε β) (b : β)
    (h : (Run.bind x f).outcome = .ret b) :
    ∃ a, x.outcome = .ret a ∧ (f a).outcome = .ret b := by
  unfold Run.bind at h
  cases hx : x.outcome with
  | ret a => rw [hx] at h; exact ⟨a, rfl, h⟩
  | fail e => rw [hx] at h; simp at h
  | panic p => rw [hx] at h; simp at h

end Run

/-! ## The two parts of `FindModel` -/

/-- The method `FindModel` of `pkg/modelregistry`, on a receiver with a client, is
`resolveVersion` followed by `firstArtifact`. -/
theorem modelregistry.FindModel_wrapper_eq (client : APIClient)
    (modelName : String) (versionName artifactId : Option String) :
    modelregistry.ModelRegistryProcessor.FindModel (some ⟨some client⟩) modelName versionName
        artifactId =
      Run.bind (resolveVersion client modelName versionName)
        (modelregistry.firstArtifact client) := by
  cases versionName <;>
    simp only [modelregistry.ModelRegistryProcessor.FindModel, resolveVersion, Run.bind_eq,
      Run.deref_some_bind, Run.bind_assoc, Run.bind_ite, Run.fail_bind] <;> rfl

/-- The method `FindModel` of the processor, on a receiver with a client, is
`resolveVersion` followed by `artifactFor`. -/
theorem processor.FindModel_processor_eq (client : APIClient)
    (modelName : String) (versionName artifactId : Option String) :
    processor.ModelRegistryProcessor.FindModel (some ⟨some client⟩) modelName versionName
        artifactId =
      Run.bind (resolveVersion client modelName versionName)
        (fun version => processor.artifactFor client version artifactId) := by
  cases versionName <;>
    simp only [processor.ModelRegistryProcessor.FindModel, resolveVersion, Run.bind_eq,
      Run.deref_some_bind, Run.bind_assoc, Run.bind_ite, Run.fail_bind] <;> rfl

/-- When `resolveVersion` returns a version, it is a resolved version of a found
model. -/
theorem resolveVersion_ret (client : APIClient) (modelName : String)
    (versionName : Option String) (version : ModelVersion)
    (h : (resolveVersion client modelName versionName).outcome = .ret (some version)) :
    ∃ model, client.FindRegisteredModel modelName = .ok (some model) ∧
      VersionResolved client model versionName version := by
  simp only [resolveVersion, Run.bind_eq] at h
  cases hm : client.FindRegisteredModel modelName with
  | error e => simp [Run.bind, Run.call, hm] at h
  | ok modelPtr =>
    cases modelPtr with
    | none => cases versionName <;> simp [Run.bind, Run.call, Run.deref, hm] at h
    | some model =>
      refine ⟨model, rfl, ?_⟩
      cases hid : model.Id with
      | none => cases versionName <;> simp [Run.bind, Run.call, Run.deref, hm, hid] at h
      | some id =>
        cases versionName with
        | some vn =>
          cases hv : client.FindModelVersion vn id with
          | error e => simp [Run.bind, Run.call, Run.deref, hm, hid, hv] at h
          | ok v =>
            simp [Run.bind, Run.call, Run.deref, hm, hid, hv] at h
            exact ⟨id, hid, by rw [hv, h]⟩
        | none =>
          cases hv : client.GetRegisteredModelVersions id ORDERBYFIELD_CREATE_TIME
              SORTORDER_DESC with
          | error e => simp [Run.bind, Run.call, Run.deref, hm, hid, hv] at h
          | ok listPtr =>
            cases listPtr with
            | none => simp [Run.bind, Run.call, Run.deref, hm, hid, hv] at h
            | some versions =>
              by_cases hs : versions.Size = 0
              · simp [Run.bind, Run.call, Run.deref, Run.fail, hm, hid, hv, hs] at h
              · cases hi : versions.Items[0]? with
                | none =>
                  simp [Run.bind, Run.call, Run.deref, Run.index, hm, hid, hv, hs, hi] at h
                | some v =>
                  simp [Run.bind, Run.call, Run.deref, Run.index, Run.pure_eq, hm, hid, hv, hs,
                    hi] at h
                  exact ⟨id, versions, hid, hv, hs, by rw [hi, h]⟩

/-- A resolved version of a found model is what `resolveVersion` returns. -/
theorem resolveVersion_of_resolved (client : APIClient) (modelName : String)
    (versionName : Option String) (model : RegisteredModel) (version : ModelVersion)
    (hm : client.FindRegisteredModel modelName = .ok (some model))
    (hv : VersionResolved client model versionName version) :
    (resolveVersion client modelName versionName).outcome = .ret (some version) := by
  cases versionName with
  | some vn =>
    obtain ⟨id, hid, hver⟩ := hv
    simp [resolveVersion, Run.bind_eq, Run.bind, Run.call, Run.deref, hm, hid, hver]
  | none =>
    obtain ⟨id, versions, hid, hver, hsize, hitem⟩ := hv
    simp [resolveVersion, Run.bind_eq, Run.bind, Run.call, Run.deref, Run.index, Run.pure_eq,
      hm, hid, hver, hsize, hitem]

/-- Under coherent responses `resolveVersion` does not panic, and the pointer it
returns is to a version with an `Id`. -/
theorem resolveVersion_total (client : APIClient) (hwf : client.WellFormed)
    (modelName : String) (versionName : Option String) :
    (∀ q, (resolveVersion client modelName versionName).outcome ≠ .panic q) ∧
    (∀ ptr, (resolveVersion client modelName versionName).outcome = .ret ptr →
      ∃ version, ptr = some version ∧ version.Id ≠ none) := by
  obtain ⟨hnm, hnv, hnl, -, -, hmodel, hversion, hlist, -⟩ := hwf
  simp only [resolveVersion, Run.bind_eq]
  cases hm : client.FindRegisteredModel modelName with
  | error e => simp [Run.bind, Run.call, hm]
  | ok modelPtr =>
    cases modelPtr with
    | none => exact absurd hm (hnm _)
    | some model =>
      cases hid : model.Id with
      | none => exact absurd hid (hmodel _ _ hm)
      | some id =>
        cases versionName with
        | some vn =>
          cases hv : client.FindModelVersion vn id with
          | error e => simp [Run.bind, Run.call, Run.deref, hm, hid, hv]
          | ok versionPtr =>
            cases versionPtr with
            | none => exact absurd hv (hnv _ _)
            | some version =>
              have := hversion _ _ _ hv
              simp [Run.bind, Run.call, Run.deref, hm, hid, hv, this]
        | none =>
          cases hv : client.GetRegisteredModelVersions id ORDERBYFIELD_CREATE_TIME
              SORTORDER_DESC with
          | error e => simp [Run.bind, Run.call, Run.deref, hm, hid, hv]
          | ok listPtr =>
            cases listPtr with
            | none => exact absurd hv (hnl _ _ _)
            | some versions =>
              by_cases hs : versions.Size = 0
              · simp [Run.bind, Run.call, Run.deref, Run.fail, hm, hid, hv, hs]
              · have hne := (hlist _ _ _ _ hv).1 hs
                cases hi : versions.Items with
                | nil => exact absurd hi hne
                | cons v rest =>
                  have hvid := (hlist _ _ _ _ hv).2 v (by simp [hi])
                  simp [Run.bind, Run.call, Run.deref, Run.index, Run.pure_eq, hm, hid, hv, hs,
                    hi, hvid]

namespace processor

/-- With `artifactId` unset, a resolved version and a listing that succeeds, the
outcome is read off the filtered list. -/
theorem FindModel_listing (client : APIClient) (modelName : String) (versionName : Option String)
    (model : RegisteredModel) (version : ModelVersion) (vid : String) (artifacts : ArtifactList)
    (hm : client.FindRegisteredModel modelName = .ok (some model))
    (hv : VersionResolved client model versionName version)
    (hvid : version.Id = some vid)
    (ha : client.GetModelVersionArtifacts vid ORDERBYFIELD_CREATE_TIME SORTORDER_DESC
      = .ok (some artifacts)) :
    (ModelRegistryProcessor.FindModel (some ⟨some client⟩) modelName versionName none).outcome =
      (match modelArtifactsOf artifacts with
       | [] => .fail (.leaf ("no model artifacts associated to model version " ++ vid))
       | p :: _ => .ret p) := by
  rw [processor.FindModel_processor_eq,
    Run.bind_outcome_ret _ _ (some version)
      (resolveVersion_of_resolved client modelName versionName model version hm hv)]
  unfold modelArtifactsOf
  simp only [artifactFor, Run.bind_eq, Run.bind, Run.call, Run.deref, Run.fail, Run.index,
    hvid, ha]
  cases (artifacts.Items.map (fun a => a.ModelArtifact)).filter (fun p => p.isSome) <;> simp

/-- The filtered list is empty exactly when no listed entry has a model-artifact
payload. -/
theorem modelArtifactsOf_eq_nil (artifacts : ArtifactList) :
    modelArtifactsOf artifacts = [] ↔ ∀ x ∈ artifacts.Items, x.ModelArtifact = none := by
  simp [modelArtifactsOf, List.filter_eq_nil_iff]

/-- The head of the filtered list is the first model-artifact payload in list
order. -/
theorem filter_isSome_head (items : List Artifact) (p : Option ModelArtifact)
    (rest : List (Option ModelArtifact))
    (h : (items.map (fun a => a.ModelArtifact)).filter (fun p => p.isSome) = p :: rest) :
    ∃ a, p = some a ∧ items.findSome? (fun x => x.ModelArtifact) = some a := by
  induction items with
  | nil => simp at h
  | cons x xs ih =>
    cases hx : x.ModelArtifact with
    | none =>
      simp only [List.map_cons, hx, List.filter_cons, Option.isSome_none] at h
      simpa [List.findSome?, hx] using ih h
    | some a =>
      simp only [List.map_cons, hx, List.filter_cons, Option.isSome_some, if_true,
        List.cons.injEq] at h
      exact ⟨a, h.1.symm, by simp [List.findSome?, hx]⟩

/-- The head of `modelArtifactsOf` is the first model-artifact payload listed. -/
theorem modelArtifactsOf_head (artifacts : ArtifactList) (p : Option ModelArtifact)
    (rest : List (Option ModelArtifact)) (h : modelArtifactsOf artifacts = p :: rest) :
    ∃ a, p = some a ∧ artifacts.Items.findSome? (fun x => x.ModelArtifact) = some a :=
  filter_isSome_head artifacts.Items p rest h

/-- Claim C5: in the Storage URI Processor's `FindModel` with `artifactId` unset, once
the model and the version are resolved and the artifact listing succeeds, the result
is the model-artifact payload of the first listed entry that carries one; the call
fails with "no model artifacts associated to model version <id>" if and only if no
listed entry carries such a payload; and it never returns a nil artifact with a nil
error. -/
theorem FindModel_first_model_artifact (client : APIClient) (modelName : String)
    (versionName : Option String) (model : RegisteredModel) (version : ModelVersion)
    (vid : String) (artifacts : ArtifactList)
    (hm : client.FindRegisteredModel modelName = .ok (some model))
    (hv : VersionResolved client model versionName version)
    (hvid : version.Id = some vid)
    (ha : client.GetModelVersionArtifacts vid ORDERBYFIELD_CREATE_TIME SORTORDER_DESC
      = .ok (some artifacts)) :
    (∀ a, artifacts.Items.findSome? (fun x => x.ModelArtifact) = some a →
      (ModelRegistryProcessor.FindModel (some ⟨some client⟩) modelName versionName
        none).outcome = .ret (some a)) ∧
    ((ModelRegistryProcessor.FindModel (some ⟨some client⟩) modelName versionName
        none).outcome
        = .fail (.leaf ("no model artifacts associated to model version " ++ vid)) ↔
      ∀ x ∈ artifacts.Items, x.ModelArtifact = none) ∧
    (∀ e, (ModelRegistryProcessor.FindModel (some ⟨some client⟩) modelName versionName
        none).outcome
        = .fail e → e = .leaf ("no model artifacts associated to model version " ++ vid)) ∧
    (ModelRegistryProcessor.FindModel (some ⟨some client⟩) modelName versionName
        none).outcome ≠ .ret none ∧
    (∀ q, (ModelRegistryProcessor.FindModel (some ⟨some client⟩) modelName versionName
        none).outcome ≠ .panic q) := by
  rw [FindModel_listing client modelName versionName model version vid artifacts hm hv hvid ha]
  rw [← modelArtifactsOf_eq_nil]
  cases hl : modelArtifactsOf artifacts with
  | nil =>
    refine ⟨?_, by simp, ?_, by simp, by simp⟩
    · intro a hfind
      have := (modelArtifactsOf_eq_nil artifacts).1 hl
      rw [List.findSome?_eq_some_iff] at hfind
      obtain ⟨l₁, x, l₂, hitems, hx, -⟩ := hfind
      have hnone := this x (by simp [hitems])
      simp [hnone] at hx
    · intro e he
      simpa using he.symm
  | cons p rest =>
    obtain ⟨a, hp, hfind⟩ := modelArtifactsOf_head artifacts p rest hl
    subst hp
    refine ⟨?_, by simp, by simp, by simp, by simp⟩
    intro b hb
    rw [hfind] at hb
    simp at hb
    simp [hb]

end processor

/-- Claim C5 at the sample registry, for version "v1": the documentation artifact
listed first is passed over and the model artifact behind it is returned. -/
theorem FindModel_first_model_artifact_witness :
    sample.registry.FindRegisteredModel "my-model" = .ok (some sample.model) ∧
    (processor.ModelRegistryProcessor.FindModel (some ⟨some sample.registry⟩) "my-model"
      (some "v1") none).outcome = .ret (some (sample.artifactOf "v1-id")) :=
  ⟨by decide,
   (processor.FindModel_first_model_artifact sample.registry "my-model" (some "v1")
      sample.model sample.v1 "v1-id"
      { Items := [sample.doc, { ModelArtifact := some (sample.artifactOf "v1-id"),
                                DocArtifact := none }], Size := 2 }
      (by decide) ⟨"1", rfl, by decide⟩ rfl rfl).1 (sample.artifactOf "v1-id") (by decide)⟩

/-! ## The version taken when none is named -/

/-- With `versionName` unset, a non-zero `Size` and a first item, `resolveVersion`
makes two calls and returns the first item. -/
theorem resolveVersion_first_listed (client : APIClient) (modelName : String)
    (model : RegisteredModel) (id : String) (versions : ModelVersionList) (v : ModelVersion)
    (rest : List ModelVersion)
    (hm : client.FindRegisteredModel modelName = .ok (some model)) (hid : model.Id = some id)
    (hv : client.GetRegisteredModelVersions id ORDERBYFIELD_CREATE_TIME SORTORDER_DESC
      = .ok (some versions))
    (hs : versions.Size ≠ 0) (hi : versions.Items = v :: rest) :
    resolveVersion client modelName none =
      ⟨[.FindRegisteredModel modelName,
        .GetRegisteredModelVersions id ORDERBYFIELD_CREATE_TIME SORTORDER_DESC],
       .ret (some v)⟩ := by
  simp [resolveVersion, Run.bind_eq, Run.bind, Run.call, Run.deref, Run.index, Run.pure_eq, hm,
    hid, hv, hs, hi]

/-- The wrapper's tail lists the artifacts of the version it is given, and calls
nothing else. -/
theorem modelregistry.firstArtifact_calls (client : APIClient) (version : ModelVersion)
    (vid : String) (hvid : version.Id = some vid) :
    (modelregistry.firstArtifact client (some version)).calls =
      [.GetModelVersionArtifacts vid ORDERBYFIELD_CREATE_TIME SORTORDER_DESC] := by
  simp only [modelregistry.firstArtifact, Run.bind_eq]
  cases ha : client.GetModelVersionArtifacts vid ORDERBYFIELD_CREATE_TIME SORTORDER_DESC with
  | error e => simp [Run.bind, Run.deref, Run.call, hvid, ha]
  | ok listPtr =>
    cases listPtr with
    | none => simp [Run.bind, Run.deref, Run.call, hvid, ha]
    | some artifacts =>
      by_cases hs : artifacts.Size = 0
      · simp [Run.bind, Run.deref, Run.call, Run.fail, hvid, ha, hs]
      · cases hi : artifacts.Items with
        | nil => simp [Run.bind, Run.deref, Run.call, Run.index, hvid, ha, hs, hi]
        | cons first rest =>
          cases hf : first.ModelArtifact <;>
            simp [Run.bind, Run.deref, Run.call, Run.index, Run.fail, Run.pure_eq, hvid, ha,
              hs, hi, hf]

/-- The processor's tail, with `artifactId` unset, lists the artifacts of the version
it is given, and calls nothing else. -/
theorem processor.artifactFor_calls (client : APIClient) (version : ModelVersion)
    (vid : String) (hvid : version.Id = some vid) :
    (processor.artifactFor client (some version) none).calls =
      [.GetModelVersionArtifacts vid ORDERBYFIELD_CREATE_TIME SORTORDER_DESC] := by
  simp only [processor.artifactFor, Run.bind_eq]
  cases ha : client.GetModelVersionArtifacts vid ORDERBYFIELD_CREATE_TIME SORTORDER_DESC with
  | error e => simp [Run.bind, Run.deref, Run.call, hvid, ha]
  | ok listPtr =>
    cases listPtr with
    | none => simp [Run.bind, Run.deref, Run.call, hvid, ha]
    | some artifacts =>
      cases hl : (artifacts.Items.map (fun a => a.ModelArtifact)).filter (fun p => p.isSome) <;>
        simp [Run.bind, Run.deref, Run.call, Run.index, Run.fail, hvid, ha, hl]

/-- The first item of a list in descending order of creation time has the latest
creation time of the list. -/
theorem SortedByCreateTimeDesc.head_max (v : ModelVersion) (rest : List ModelVersion)
    (h : SortedByCreateTimeDesc (v :: rest)) :
    ∀ w ∈ v :: rest, w.CreateTimeSinceEpoch ≤ v.CreateTimeSinceEpoch := by
  intro w hw
  rcases List.mem_cons.1 hw with rfl | hw
  · exact le_refl _
  · exact (List.pairwise_cons.1 h).1 w hw

/-- Claim C4 as stated fails: the sample registry lists [v1@1, v2@3, v3@2] and both
variants of `FindModel` list the artifacts of v1, the first item, not of v2. -/
theorem FindModel_not_latest_created :
    ¬ ResolvesLatestCreated (fun client modelName =>
        (processor.ModelRegistryProcessor.FindModel (some ⟨some client⟩) modelName none
          none).calls) ∧
    ¬ ResolvesLatestCreated (fun client modelName =>
        (modelregistry.ModelRegistryProcessor.FindModel (some ⟨some client⟩) modelName none
          none).calls) := by
  constructor
  · intro h
    obtain ⟨v, hmem, hmax, vid, hvid, hcall⟩ := h sample.registry "my-model" sample.model "1"
      { Items := [sample.v1, sample.v2, sample.v3], Size := 3 } (by decide) rfl (by decide)
      (by simp)
    simp only [List.mem_cons, List.mem_singleton, List.not_mem_nil, or_false] at hmem
    rcases hmem with rfl | rfl | rfl
    · exact absurd (hmax sample.v2 (by simp)) (by decide)
    · cases hvid; revert hcall; decide
    · exact absurd (hmax sample.v2 (by simp)) (by decide)
  · intro h
    obtain ⟨v, hmem, hmax, vid, hvid, hcall⟩ := h sample.registry "my-model" sample.model "1"
      { Items := [sample.v1, sample.v2, sample.v3], Size := 3 } (by decide) rfl (by decide)
      (by simp)
    simp only [List.mem_cons, List.mem_singleton, List.not_mem_nil, or_false] at hmem
    rcases hmem with rfl | rfl | rfl
    · exact absurd (hmax sample.v2 (by simp)) (by decide)
    · cases hvid; revert hcall; decide
    · exact absurd (hmax sample.v2 (by simp)) (by decide)

/-- Claim C4 as amended: when the model lookup returns a model with an `Id` and the
version listing, asked for by creation time descending, returns a non-zero `Size` and
a list whose first item has an `Id`, `FindModel` with `versionName` unset lists the
artifacts of that first item and of no other, whatever the creation times; the first
item has the latest creation time when the list comes in the order asked for. -/
theorem FindModel_latest_is_first_listed (client : APIClient) (modelName : String)
    (artifactId : Option String)
    (model : RegisteredModel) (id : String) (versions : ModelVersionList) (v : ModelVersion)
    (rest : List ModelVersion) (vid : String)
    (hm : client.FindRegisteredModel modelName = .ok (some model)) (hid : model.Id = some id)
    (hv : client.GetRegisteredModelVersions id ORDERBYFIELD_CREATE_TIME SORTORDER_DESC
      = .ok (some versions))
    (hs : versions.Size ≠ 0) (hi : versions.Items = v :: rest) (hvid : v.Id = some vid) :
    (processor.ModelRegistryProcessor.FindModel (some ⟨some client⟩) modelName none
        none).calls =
      [.FindRegisteredModel modelName,
       .GetRegisteredModelVersions id ORDERBYFIELD_CREATE_TIME SORTORDER_DESC,
       .GetModelVersionArtifacts vid ORDERBYFIELD_CREATE_TIME SORTORDER_DESC] ∧
    (modelregistry.ModelRegistryProcessor.FindModel (some ⟨some client⟩) modelName none
        artifactId).calls =
      [.FindRegisteredModel modelName,
       .GetRegisteredModelVersions id ORDERBYFIELD_CREATE_TIME SORTORDER_DESC,
       .GetModelVersionArtifacts vid ORDERBYFIELD_CREATE_TIME SORTORDER_DESC] ∧
    (SortedByCreateTimeDesc versions.Items →
      ∀ w ∈ versions.Items, w.CreateTimeSinceEpoch ≤ v.CreateTimeSinceEpoch) := by
  have hres := resolveVersion_first_listed client modelName model id versions v rest hm hid hv
    hs hi
  refine ⟨?_, ?_, ?_⟩
  · rw [processor.FindModel_processor_eq, Run.bind_calls_ret _ _ (some v) (by rw [hres]), hres,
      processor.artifactFor_calls client v vid hvid]
    rfl
  · rw [modelregistry.FindModel_wrapper_eq, Run.bind_calls_ret _ _ (some v) (by rw [hres]), hres,
      modelregistry.firstArtifact_calls client v vid hvid]
    rfl
  · rw [hi]
    exact SortedByCreateTimeDesc.head_max v rest

/-- Claim C4 as amended, at the sample registry that lists [v2@3, v3@2, v1@1]: the
artifacts of v2 are listed, and v2 has the latest creation time. -/
theorem FindModel_latest_is_first_listed_witness :
    sample.latestFirst.FindRegisteredModel "my-model" = .ok (some sample.model) ∧
    (processor.ModelRegistryProcessor.FindModel (some ⟨some sample.latestFirst⟩) "my-model"
      none none).calls =
      [.FindRegisteredModel "my-model",
       .GetRegisteredModelVersions "1" ORDERBYFIELD_CREATE_TIME SORTORDER_DESC,
       .GetModelVersionArtifacts "v2-id" ORDERBYFIELD_CREATE_TIME SORTORDER_DESC] ∧
    (∀ w ∈ [sample.v2, sample.v3, sample.v1],
      w.CreateTimeSinceEpoch ≤ sample.v2.CreateTimeSinceEpoch) :=
  have h := FindModel_latest_is_first_listed sample.latestFirst "my-model" none sample.model "1"
    { Items := [sample.v2, sample.v3, sample.v1], Size := 3 } sample.v2
    [sample.v3, sample.v1] "v2-id" (by decide) rfl rfl (by decide) rfl rfl
  ⟨by decide, h.1, h.2.2 (by unfold SortedByCreateTimeDesc; decide)⟩

/-! ## The two variants of `FindModel` compared -/

/-- When taking the first listed entry returns, filtering and taking the first makes
the same call and returns the same pointer, which is not nil. -/
theorem firstArtifact_ret (client : APIClient) (version : Option ModelVersion)
    (p : Option ModelArtifact)
    (h : (modelregistry.firstArtifact client version).outcome = .ret p) :
    processor.artifactFor client version none = modelregistry.firstArtifact client version ∧
      p ≠ none := by
  simp only [modelregistry.firstArtifact, processor.artifactFor, Run.bind_eq] at h ⊢
  cases version with
  | none => simp [Run.bind, Run.deref] at h
  | some versionRecord =>
    cases hid : versionRecord.Id with
    | none => simp [Run.bind, Run.deref, hid] at h
    | some vid =>
      cases ha : client.GetModelVersionArtifacts vid ORDERBYFIELD_CREATE_TIME
          SORTORDER_DESC with
      | error e => simp [Run.bind, Run.deref, Run.call, hid, ha] at h
      | ok listPtr =>
        cases listPtr with
        | none => simp [Run.bind, Run.deref, Run.call, hid, ha] at h
        | some artifacts =>
          by_cases hs : artifacts.Size = 0
          · simp [Run.bind, Run.deref, Run.call, Run.fail, hid, ha, hs] at h
          · cases hi : artifacts.Items with
            | nil => simp [Run.bind, Run.deref, Run.call, Run.index, hid, ha, hs, hi] at h
            | cons first rest =>
              cases hf : first.ModelArtifact with
              | none =>
                simp [Run.bind, Run.deref, Run.call, Run.index, Run.fail, hid, ha, hs, hi,
                  hf] at h
              | some a =>
                simp [Run.bind, Run.deref, Run.call, Run.index, Run.fail, Run.pure_eq, hid, ha,
                  hs, hi, hf] at h
                subst h
                simp [Run.bind, Run.deref, Run.call, Run.index, Run.fail, Run.pure_eq, hid, ha,
                  hs, hi, hf]

/-- Claim C10: with `artifactId` unset, whenever `FindModel` of `pkg/modelregistry`
(take the first listed entry) returns an artifact, `FindModel` of
`pkg/predictor_source/processor` (filter, then take the first) makes the same calls
and returns the same artifact; the converse fails, for the processor's variant also
returns when the first listed entry has no model-artifact payload and a later one
has. -/
theorem FindModel_processor_extends_wrapper :
    (∀ (client : APIClient) (modelName : String) (versionName : Option String)
        (p : Option ModelArtifact),
      (modelregistry.ModelRegistryProcessor.FindModel (some ⟨some client⟩) modelName
          versionName none).outcome = .ret p →
        (processor.ModelRegistryProcessor.FindModel (some ⟨some client⟩) modelName
          versionName none).outcome = .ret p ∧
        (processor.ModelRegistryProcessor.FindModel (some ⟨some client⟩) modelName
          versionName none).calls
          = (modelregistry.ModelRegistryProcessor.FindModel (some ⟨some client⟩) modelName
              versionName none).calls ∧
        p ≠ none) ∧
    (∃ (client : APIClient) (modelName : String) (versionName : Option String)
        (a : ModelArtifact),
      (processor.ModelRegistryProcessor.FindModel (some ⟨some client⟩) modelName
          versionName none).outcome = .ret (some a) ∧
      ∀ p, (modelregistry.ModelRegistryProcessor.FindModel (some ⟨some client⟩) modelName
          versionName none).outcome ≠ .ret p) := by
  constructor
  · intro client modelName versionName p h
    rw [modelregistry.FindModel_wrapper_eq] at h
    obtain ⟨version, hver, htail⟩ := Run.bind_outcome_eq_ret _ _ _ h
    obtain ⟨heq, hp⟩ := firstArtifact_ret client version p htail
    have hrun : processor.ModelRegistryProcessor.FindModel (some ⟨some client⟩) modelName
          versionName none
        = modelregistry.ModelRegistryProcessor.FindModel (some ⟨some client⟩) modelName
          versionName none := by
      rw [modelregistry.FindModel_wrapper_eq, processor.FindModel_processor_eq,
        Run.bind_ret _ _ _ hver, Run.bind_ret _ _ _ hver, heq]
    rw [hrun, modelregistry.FindModel_wrapper_eq]
    exact ⟨h, rfl, hp⟩
  · refine ⟨sample.registry, "my-model", none, sample.artifactOf "v1-id", by decide, ?_⟩
    have hfail : (modelregistry.ModelRegistryProcessor.FindModel (some ⟨some sample.registry⟩)
        "my-model" none none).outcome
        = .fail (.leaf "no model artifact found for model version v1-id") := by decide
    intro p hp
    rw [hfail] at hp
    cases hp

/-- Claim C10 at the sample registry that lists the model artifact first: both variants
return the artifact of version "v1". -/
theorem FindModel_processor_extends_wrapper_witness :
    (modelregistry.ModelRegistryProcessor.FindModel (some ⟨some sample.modelArtifactFirst⟩)
        "my-model" (some "v1") none).outcome = .ret (some (sample.artifactOf "v1-id")) ∧
    (processor.ModelRegistryProcessor.FindModel (some ⟨some sample.modelArtifactFirst⟩)
        "my-model" (some "v1") none).outcome = .ret (some (sample.artifactOf "v1-id")) :=
  ⟨by decide,
   (FindModel_processor_extends_wrapper.1 sample.modelArtifactFirst "my-model" (some "v1")
      (some (sample.artifactOf "v1-id")) (by decide)).1⟩

/-! ## The custom URI -/

namespace processor

/-- At most two substrings: the text is cut at the first separator, if any. -/
theorem splitChars_two (sep : Char) (s : List Char) :
    strings.splitChars sep 2 s =
      match strings.cutAt sep s with
      | some (before, after) => [before, after]
      | none => [s] := by
  cases h : strings.cutAt sep s with
  | none => simp [strings.splitChars, h]
  | some ba => obtain ⟨b, a⟩ := ba; simp [strings.splitChars, h]

/-- What lines 51 to 66 compute: a path without '/' past its first character is the
version name, and otherwise what follows the first such '/' is the artifact id. -/
theorem parseCustomUri_eq (customUri : URL) :
    parseCustomUri customUri =
      match strings.cutAt '/' (strings.TrimPrefix customUri.Path '/').data with
      | some (_, after) => .ok (customUri.Host, none, some ⟨after⟩)
      | none => .ok (customUri.Host, some (strings.TrimPrefix customUri.Path '/'), none) := by
  unfold parseCustomUri strings.SplitN
  rw [splitChars_two]
  cases h : strings.cutAt '/' (strings.TrimPrefix customUri.Path '/').data with
  | none => simp
  | some ba => obtain ⟨b, a⟩ := ba; simp

/-- The parse error of line 54 is returned for no custom URI, and the model name is
the host. -/
theorem parseCustomUri_ok (customUri : URL) :
    ∃ versionName artifactId,
      parseCustomUri customUri = .ok (customUri.Host, versionName, artifactId) := by
  rw [parseCustomUri_eq]
  cases h : strings.cutAt '/' (strings.TrimPrefix customUri.Path '/').data with
  | none => exact ⟨_, _, rfl⟩
  | some ba => obtain ⟨b, a⟩ := ba; exact ⟨_, _, rfl⟩

/-- The first '/' of `v ++ "/" ++ a` is the one written, when `v` has none. -/
theorem cutAt_append (v a : List Char) (hv : '/' ∉ v) :
    strings.cutAt '/' (v ++ '/' :: a) = some (v, a) := by
  induction v with
  | nil => simp [strings.cutAt]
  | cons c cs ih =>
    have hc : c ≠ '/' := fun h => hv (by simp [h])
    have hcs : '/' ∉ cs := fun h => hv (by simp [h])
    simp [strings.cutAt, hc, ih hcs]

/-- For every path "/v/a" with `v` free of '/', lines 51 to 66 leave the version name
unset and make what follows "v/" the artifact id. -/
theorem parseCustomUri_two_segments (host v a : String) (hv : '/' ∉ v.data) :
    parseCustomUri ⟨host, "/" ++ v ++ "/" ++ a⟩ = .ok (host, none, some a) := by
  rw [parseCustomUri_eq]
  have hpath : (strings.TrimPrefix ("/" ++ v ++ "/" ++ a) '/').data = v.data ++ '/' :: a.data := by
    simp [strings.TrimPrefix, String.data_append]
  simp only [hpath, cutAt_append v.data a.data hv]

/-- Claim C1 at the URI model-registry://my-model/v1/art-42: `FindModel` is called with
the version name unset, not with "v1"; the registry is asked for the version listing and
never for a version named "v1". -/
theorem two_segments_drop_version_name :
    parseCustomUri ⟨"my-model", "/v1/art-42"⟩ = .ok ("my-model", none, some "art-42") ∧
    (ModelRegistryProcessor.ProcessInferenceServiceStorage (some ⟨some sample.registry⟩)
        (some ⟨"my-model", "/v1/art-42"⟩) [sample.isvc] 0 sample.nname
        (some sample.continuation)).calls =
      [.registry (.FindRegisteredModel "my-model"),
       .registry (.GetRegisteredModelVersions "1" ORDERBYFIELD_CREATE_TIME SORTORDER_DESC),
       .registry (.GetModelArtifact "art-42"),
       .continuation (sample.isvcAt (some "s3://bucket/path")) sample.nname] := by
  decide

/-- Claim C2 at the URI model-registry://my-model/v1/a/b: no parse error is returned;
`FindModel` is called with artifact id "a/b", three registry calls are made, and the
error returned is the wrapped answer of the registry. -/
theorem three_segments_reach_registry :
    parseCustomUri ⟨"my-model", "/v1/a/b"⟩ = .ok ("my-model", none, some "a/b") ∧
    ModelRegistryProcessor.ProcessInferenceServiceStorage (some ⟨some sample.registry⟩)
        (some ⟨"my-model", "/v1/a/b"⟩) [sample.isvc] 0 sample.nname
        (some sample.continuation) =
      ⟨[.registry (.FindRegisteredModel "my-model"),
        .registry (.GetRegisteredModelVersions "1" ORDERBYFIELD_CREATE_TIME SORTORDER_DESC),
        .registry (.GetModelArtifact "a/b")],
       .ret ({ err := some (.wrapped "unable to find model my-model: 404 Not Found"
                 sample.notFound) }, [sample.isvc])⟩ := by
  decide

/-- Claim C3 at the URIs model-registry://my-model and model-registry://my-model/:
`FindModel` is called with the version name set to the empty string, not unset; the
registry is asked for a version named "" and never for the version listing. -/
theorem empty_path_sets_empty_version_name :
    parseCustomUri ⟨"my-model", ""⟩ = .ok ("my-model", some "", none) ∧
    parseCustomUri ⟨"my-model", "/"⟩ = .ok ("my-model", some "", none) ∧
    ModelRegistryProcessor.ProcessInferenceServiceStorage (some ⟨some sample.registry⟩)
        (some ⟨"my-model", ""⟩) [sample.isvc] 0 sample.nname (some sample.continuation) =
      ⟨[.registry (.FindRegisteredModel "my-model"),
        .registry (.FindModelVersion "" "1")],
       .ret ({ err := some (.wrapped "unable to find model my-model: 404 Not Found"
                 sample.notFound) }, [sample.isvc])⟩ := by
  decide

/-! ## Resolution and hand-over -/

/-- The calls of `ProcessInferenceServiceStorage` on a custom URI: those of `FindModel`
for the parsed triple, then those of lines 68 to 80. -/
theorem Process_eq (m : Option ModelRegistryProcessor) (customUri : URL) (heap : Heap)
    (inferenceService : Ptr) (nname : NamespacedName)
    (k : Option (InferenceService → NamespacedName → StorageResult))
    (modelName : String) (versionName artifactId : Option String)
    (hparse : parseCustomUri customUri = .ok (modelName, versionName, artifactId)) :
    ModelRegistryProcessor.ProcessInferenceServiceStorage m (some customUri) heap
        inferenceService nname k =
      ⟨(ModelRegistryProcessor.FindModel m modelName versionName artifactId).calls.map
          Event.registry ++
         (forward (ModelRegistryProcessor.FindModel m modelName versionName artifactId).outcome
            modelName heap inferenceService nname k).calls,
       (forward (ModelRegistryProcessor.FindModel m modelName versionName artifactId).outcome
            modelName heap inferenceService nname k).outcome⟩ := by
  unfold parseCustomUri at hparse
  unfold ModelRegistryProcessor.ProcessInferenceServiceStorage
  simp only [Run.bind_eq, Run.deref_some_bind] at hparse ⊢
  split at hparse
  · cases hparse
  · rename_i hlen
    simp only [Except.ok.injEq, Prod.mk.injEq] at hparse
    obtain ⟨rfl, rfl, rfl⟩ := hparse
    rw [if_neg hlen]
    cases hfound : (ModelRegistryProcessor.FindModel m customUri.Host
        (if (strings.SplitN (strings.TrimPrefix customUri.Path '/') '/' 2).length = 1 then
          (strings.SplitN (strings.TrimPrefix customUri.Path '/') '/' 2)[0]? else none)
        (if (strings.SplitN (strings.TrimPrefix customUri.Path '/') '/' 2).length = 2 then
          (strings.SplitN (strings.TrimPrefix customUri.Path '/') '/' 2)[1]? else none)).outcome <;>
      simp [Run.bind_eq, Run.bind, Run.result, Run.liftCalls, forward, hfound, Run.pure_eq]

/-- The model name handed to `FindModel` is the host of the custom URI. -/
theorem parseCustomUri_host (customUri : URL) (modelName : String)
    (versionName artifactId : Option String)
    (hparse : parseCustomUri customUri = .ok (modelName, versionName, artifactId)) :
    modelName = customUri.Host := by
  obtain ⟨vn, aid, h⟩ := parseCustomUri_ok customUri
  rw [h] at hparse
  simp only [Except.ok.injEq, Prod.mk.injEq] at hparse
  exact hparse.1.symm

/-- Lines 74 to 80 on a valid pointer, a predictor with a model spec and a
continuation: the copy is a new object, it alone is patched, and the continuation is
called once with it. -/
theorem forward_ret (A : ModelArtifact) (modelName : String) (heap : Heap) (p : Ptr)
    (nname : NamespacedName) (k : InferenceService → NamespacedName → StorageResult)
    (isvc : InferenceService) (ms : ModelSpec)
    (hp : heap[p]? = some isvc) (hms : isvc.Spec.Predictor.Model = some ms) :
    forward (.ret (some A)) modelName heap p nname (some k) =
      ⟨[.continuation
          { isvc with Spec.Predictor.Model := some { ms with StorageURI := A.Uri } } nname],
       .ret (k { isvc with Spec.Predictor.Model := some { ms with StorageURI := A.Uri } } nname,
         heap ++ [{ isvc with Spec.Predictor.Model := some { ms with StorageURI := A.Uri } }])⟩ := by
  simp [forward, DeepCopy, hp, Run.bind_eq, Run.pure_eq, Run.bind, Run.deref, Run.emit, hms]

/-- No call made by `FindModel` is a call of the continuation. -/
theorem registry_not_continuation (calls : List RegistryCall) :
    ∀ ev ∈ calls.map Event.registry, Event.isContinuation ev = false := by
  intro ev hev
  obtain ⟨c, -, rfl⟩ := List.mem_map.1 hev
  rfl

/-- Claim C7: whenever `FindModel` fails with cause `e` for the parsed triple,
`ProcessInferenceServiceStorage` returns an error whose message is
"unable to find model <modelName>: <e>", with the model name the host of the custom
URI, and which wraps `e`; the other four results are nil or empty; the continuation is
not called and the heap is left as it was. -/
theorem Process_FindModel_fails (m : Option ModelRegistryProcessor) (customUri : URL)
    (heap : Heap) (inferenceService : Ptr) (nname : NamespacedName)
    (k : Option (InferenceService → NamespacedName → StorageResult))
    (modelName : String) (versionName artifactId : Option String) (e : GoError)
    (hparse : parseCustomUri customUri = .ok (modelName, versionName, artifactId))
    (hfail : (ModelRegistryProcessor.FindModel m modelName versionName artifactId).outcome
      = .fail e) :
    modelName = customUri.Host ∧
    (∃ err : GoError,
      (ModelRegistryProcessor.ProcessInferenceServiceStorage m (some customUri) heap
          inferenceService nname k).outcome =
        .ret ({ secretKey := none, parameters := none, modelPath := "", schemaPath := none,
                err := some err }, heap) ∧
      err.Error = "unable to find model " ++ customUri.Host ++ ": " ++ e.Error ∧
      err.Unwrap = some e) ∧
    (ModelRegistryProcessor.ProcessInferenceServiceStorage m (some customUri) heap
        inferenceService nname k).calls =
      (ModelRegistryProcessor.FindModel m modelName versionName artifactId).calls.map
        Event.registry ∧
    (∀ ev ∈ (ModelRegistryProcessor.ProcessInferenceServiceStorage m (some customUri) heap
        inferenceService nname k).calls,
      Event.isContinuation ev = false) := by
  have hhost := parseCustomUri_host customUri modelName versionName artifactId hparse
  have hcalls : (ModelRegistryProcessor.ProcessInferenceServiceStorage m (some customUri) heap
        inferenceService nname k).calls =
      (ModelRegistryProcessor.FindModel m modelName versionName artifactId).calls.map
        Event.registry := by
    rw [Process_eq m customUri heap inferenceService nname k modelName versionName artifactId
      hparse, hfail]
    simp [forward, Run.pure_eq]
  refine ⟨hhost, ⟨.wrapped ("unable to find model " ++ customUri.Host ++ ": " ++ e.Error) e,
    ?_, rfl, rfl⟩, hcalls, ?_⟩
  · rw [Process_eq m customUri heap inferenceService nname k modelName versionName artifactId
      hparse, hfail, hhost]
    simp [forward, Run.pure_eq]
  · rw [hcalls]
    exact registry_not_continuation _

/-- Claim C7 at the URI model-registry://unknown/v1 and the sample registry, which has
no model "unknown". -/
theorem Process_FindModel_fails_witness :
    parseCustomUri ⟨"unknown", "/v1"⟩ = .ok ("unknown", some "v1", none) ∧
    (ModelRegistryProcessor.FindModel (some ⟨some sample.registry⟩) "unknown" (some "v1")
      none).outcome = .fail sample.notFound ∧
    (ModelRegistryProcessor.ProcessInferenceServiceStorage (some ⟨some sample.registry⟩)
        (some ⟨"unknown", "/v1"⟩) [sample.isvc] 0 sample.nname
        (some sample.continuation)).calls =
      (ModelRegistryProcessor.FindModel (some ⟨some sample.registry⟩) "unknown" (some "v1")
        none).calls.map Event.registry :=
  ⟨by decide, by decide,
   (Process_FindModel_fails (some ⟨some sample.registry⟩) ⟨"unknown", "/v1"⟩ [sample.isvc] 0
      sample.nname (some sample.continuation) "unknown" (some "v1") none sample.notFound
      (by decide) (by decide)).2.2.1⟩

/-- Claim C6 as stated fails: for an inference service whose predictor has no model
spec, `FindModel` returns an artifact and `ProcessInferenceServiceStorage` then panics
on line 75 without calling the continuation. -/
theorem Process_without_model_spec_panics :
    parseCustomUri ⟨"my-model", "/v1"⟩ = .ok ("my-model", some "v1", none) ∧
    (ModelRegistryProcessor.FindModel (some ⟨some sample.registry⟩) "my-model" (some "v1")
      none).outcome = .ret (some (sample.artifactOf "v1-id")) ∧
    (ModelRegistryProcessor.ProcessInferenceServiceStorage (some ⟨some sample.registry⟩)
        (some ⟨"my-model", "/v1"⟩) [sample.isvcWithoutModel] 0 sample.nname
        (some sample.continuation)).outcome = .panic .nilDereference ∧
    (ModelRegistryProcessor.ProcessInferenceServiceStorage (some ⟨some sample.registry⟩)
        (some ⟨"my-model", "/v1"⟩) [sample.isvcWithoutModel] 0 sample.nname
        (some sample.continuation)).calls.filter Event.isContinuation = [] := by
  decide

/-- Claim C6 as amended: whenever `FindModel` returns artifact `A` for the parsed
triple and the predictor of the inference service has a model spec,
`ProcessInferenceServiceStorage` calls the continuation exactly once, after the
registry calls, with the given namespaced name and an inference service equal to the
input one in every field except that the storage URI of the predictor's model is that
of `A`; it returns the five results of the continuation unchanged; and the caller's
inference service, like every object that was in memory, is left as it was. -/
theorem Process_FindModel_returns (m : Option ModelRegistryProcessor) (customUri : URL)
    (heap : Heap) (inferenceService : Ptr) (nname : NamespacedName)
    (k : InferenceService → NamespacedName → StorageResult)
    (modelName : String) (versionName artifactId : Option String) (A : ModelArtifact)
    (isvc : InferenceService) (ms : ModelSpec)
    (hparse : parseCustomUri customUri = .ok (modelName, versionName, artifactId))
    (hfound : (ModelRegistryProcessor.FindModel m modelName versionName artifactId).outcome
      = .ret (some A))
    (hp : heap[inferenceService]? = some isvc)
    (hms : isvc.Spec.Predictor.Model = some ms) :
    (ModelRegistryProcessor.ProcessInferenceServiceStorage m (some customUri) heap
        inferenceService nname (some k)).calls =
      (ModelRegistryProcessor.FindModel m modelName versionName artifactId).calls.map
          Event.registry ++
        [.continuation
          { isvc with Spec.Predictor.Model := some { ms with StorageURI := A.Uri } } nname] ∧
    (ModelRegistryProcessor.ProcessInferenceServiceStorage m (some customUri) heap
        inferenceService nname (some k)).calls.filter Event.isContinuation =
      [.continuation
        { isvc with Spec.Predictor.Model := some { ms with StorageURI := A.Uri } } nname] ∧
    (∃ heap',
      (ModelRegistryProcessor.ProcessInferenceServiceStorage m (some customUri) heap
          inferenceService nname (some k)).outcome =
        .ret (k { isvc with Spec.Predictor.Model := some { ms with StorageURI := A.Uri } } nname,
          heap') ∧
      heap'[inferenceService]? = some isvc ∧
      ∀ q, q < heap.length → heap'[q]? = heap[q]?) := by
  have hrun := Process_eq m customUri heap inferenceService nname (some k) modelName versionName
    artifactId hparse
  rw [hfound, forward_ret A modelName heap inferenceService nname k isvc ms hp hms] at hrun
  rw [hrun]
  refine ⟨rfl, ?_, _, rfl, ?_, ?_⟩
  · rw [List.filter_append, List.filter_eq_nil_iff.2]
    · rfl
    · intro ev hev
      simp [registry_not_continuation _ ev hev]
  · have hlt : inferenceService < heap.length := by
      by_contra hge
      rw [List.getElem?_eq_none (Nat.le_of_not_lt hge)] at hp
      cases hp
    rw [List.getElem?_append_left hlt, hp]
  · intro q hq
    rw [List.getElem?_append_left hq]

/-- Claim C6 as amended, at the URI model-registry://my-model/v1 and the sample
registry: the continuation is given the copy with storage URI "s3://bucket/v1-id", its
results come back unchanged, and the object at address 0 is the one passed in. -/
theorem Process_FindModel_returns_witness :
    parseCustomUri ⟨"my-model", "/v1"⟩ = .ok ("my-model", some "v1", none) ∧
    (ModelRegistryProcessor.ProcessInferenceServiceStorage (some ⟨some sample.registry⟩)
        (some ⟨"my-model", "/v1"⟩) [sample.isvc] 0 sample.nname
        (some sample.continuation)).calls.filter Event.isContinuation =
      [.continuation (sample.isvcAt (some "s3://bucket/v1-id")) sample.nname] :=
  ⟨by decide,
   (Process_FindModel_returns (some ⟨some sample.registry⟩) ⟨"my-model", "/v1"⟩ [sample.isvc] 0
      sample.nname sample.continuation "my-model" (some "v1") none
      (sample.artifactOf "v1-id") sample.isvc sample.modelSpec (by decide) (by decide) rfl
      rfl).2.1⟩

end processor

/-! ## Panics -/

/-- A bound run panics only if one of its parts does. -/
theorem Run.bind_no_panic {ε α β : Type} (x : Run ε α) (f : α → Run ε β)
    (hx : ∀ q, x.outcome ≠ .panic q)
    (hf : ∀ a, x.outcome = .ret a → ∀ q, (f a).outcome ≠ .panic q) :
    ∀ q, (Run.bind x f).outcome ≠ .panic q := by
  intro q
  cases h : x.outcome with
  | ret a => rw [Run.bind_outcome_ret x f a h]; exact hf a h q
  | fail e => rw [Run.bind_outcome_fail x f e h]; simp
  | panic r => exact absurd h (hx r)

/-- Under coherent responses the wrapper's tail does not panic on a version with an
`Id`. -/
theorem modelregistry.firstArtifact_no_panic (client : APIClient) (hwf : client.WellFormed)
    (version : ModelVersion) (hid : version.Id ≠ none) :
    ∀ q, (modelregistry.firstArtifact client (some version)).outcome ≠ .panic q := by
  obtain ⟨-, -, -, -, hna, -, -, -, hlist⟩ := hwf
  intro q
  obtain ⟨vid, hvid⟩ := Option.ne_none_iff_exists'.1 hid
  simp only [modelregistry.firstArtifact, Run.bind_eq]
  cases ha : client.GetModelVersionArtifacts vid ORDERBYFIELD_CREATE_TIME SORTORDER_DESC with
  | error e => simp [Run.bind, Run.deref, Run.call, hvid, ha]
  | ok listPtr =>
    cases listPtr with
    | none => exact absurd ha (hna _ _ _)
    | some artifacts =>
      by_cases hs : artifacts.Size = 0
      · simp [Run.bind, Run.deref, Run.call, Run.fail, hvid, ha, hs]
      · cases hi : artifacts.Items with
        | nil => exact absurd hi (hlist _ _ _ _ ha hs)
        | cons first rest =>
          cases hf : first.ModelArtifact <;>
            simp [Run.bind, Run.deref, Run.call, Run.index, Run.fail, Run.pure_eq, hvid, ha,
              hs, hi, hf]

/-- The first pointer that the filter keeps is not nil. -/
theorem filter_isSome_index {α : Type} (l : List (Option α)) :
    (l.filter (fun p => p.isSome))[0]? = none ∧ l.filter (fun p => p.isSome) = [] ∨
      ∃ a, (l.filter (fun p => p.isSome))[0]? = some (some a) := by
  cases hl : l.filter (fun p => p.isSome) with
  | nil => exact Or.inl ⟨rfl, rfl⟩
  | cons p rest =>
    have hp : p ∈ l.filter (fun p => p.isSome) := by rw [hl]; simp
    have hsome := (List.mem_filter.1 hp).2
    obtain ⟨a, rfl⟩ := Option.isSome_iff_exists.1 hsome
    exact Or.inr ⟨a, by simp⟩

/-- Under coherent responses the processor's tail does not panic on a version with an
`Id`, and the pointer it returns is not nil. -/
theorem processor.artifactFor_total (client : APIClient) (hwf : client.WellFormed)
    (version : ModelVersion) (artifactId : Option String) (hid : version.Id ≠ none) :
    (∀ q, (processor.artifactFor client (some version) artifactId).outcome ≠ .panic q) ∧
    (processor.artifactFor client (some version) artifactId).outcome ≠ .ret none := by
  obtain ⟨-, -, -, hnart, hna, -, -, -, -⟩ := hwf
  obtain ⟨vid, hvid⟩ := Option.ne_none_iff_exists'.1 hid
  simp only [processor.artifactFor, Run.bind_eq]
  cases artifactId with
  | some aid =>
    cases ha : client.GetModelArtifact aid with
    | error e => simp [Run.call, ha]
    | ok artifactPtr =>
      cases artifactPtr with
      | none => exact absurd ha (hnart _)
      | some artifact => simp [Run.call, ha]
  | none =>
    cases ha : client.GetModelVersionArtifacts vid ORDERBYFIELD_CREATE_TIME SORTORDER_DESC with
    | error e => simp [Run.bind, Run.deref, Run.call, hvid, ha]
    | ok listPtr =>
      cases listPtr with
      | none => exact absurd ha (hna _ _ _)
      | some artifacts =>
        rcases filter_isSome_index (artifacts.Items.map (fun a => a.ModelArtifact)) with
          ⟨-, hnil⟩ | ⟨a, hsome⟩
        · simp [Run.bind, Run.deref, Run.call, Run.fail, hvid, ha, hnil]
        · have hne : (artifacts.Items.map (fun a => a.ModelArtifact)).filter
              (fun p => p.isSome) ≠ [] := by
            intro h; rw [h] at hsome; simp at hsome
          have hlen : ((artifacts.Items.map (fun a => a.ModelArtifact)).filter
              (fun p => p.isSome)).length ≠ 0 := by
            simpa [List.length_eq_zero] using hne
          simp only [Run.bind, Run.deref, Run.call, Run.index, Run.fail, hvid, ha, hlen,
            if_false, hsome]
          simp

/-- Under coherent responses `FindModel` of `pkg/modelregistry` does not panic on a
receiver with a client. -/
theorem modelregistry.FindModel_no_panic (client : APIClient) (hwf : client.WellFormed)
    (modelName : String) (versionName artifactId : Option String) :
    ∀ q, (modelregistry.ModelRegistryProcessor.FindModel (some ⟨some client⟩) modelName
      versionName artifactId).outcome ≠ .panic q := by
  rw [modelregistry.FindModel_wrapper_eq]
  obtain ⟨hnp, hret⟩ := resolveVersion_total client hwf modelName versionName
  refine Run.bind_no_panic _ _ hnp ?_
  intro ptr hver
  obtain ⟨version, rfl, hid⟩ := hret ptr hver
  exact modelregistry.firstArtifact_no_panic client hwf version hid

/-- Under coherent responses `FindModel` of the processor does not panic on a receiver
with a client, and returns no nil pointer. -/
theorem processor.FindModel_total (client : APIClient) (hwf : client.WellFormed)
    (modelName : String) (versionName artifactId : Option String) :
    (∀ q, (processor.ModelRegistryProcessor.FindModel (some ⟨some client⟩) modelName
      versionName artifactId).outcome ≠ .panic q) ∧
    (processor.ModelRegistryProcessor.FindModel (some ⟨some client⟩) modelName versionName
      artifactId).outcome ≠ .ret none := by
  rw [processor.FindModel_processor_eq]
  obtain ⟨hnp, hret⟩ := resolveVersion_total client hwf modelName versionName
  constructor
  · refine Run.bind_no_panic _ _ hnp ?_
    intro ptr hver
    obtain ⟨version, rfl, hid⟩ := hret ptr hver
    exact (processor.artifactFor_total client hwf version artifactId hid).1
  · intro h
    obtain ⟨ptr, hver, htail⟩ := Run.bind_outcome_eq_ret _ _ _ h
    obtain ⟨version, rfl, hid⟩ := hret ptr hver
    exact (processor.artifactFor_total client hwf version artifactId hid).2 htail

/-- Claim C8 as stated fails.  Each of these alone ends in a panic: a version or
artifact listing with a non-zero `Size` and no item (`Items[0]`); a model or version
record with no `Id`; a nil record or list returned with a nil error by any of the five
registry calls; a nil receiver or a receiver with no client; a nil custom URI; a nil
inference service; an inference service whose predictor has no model spec (line 75);
a nil continuation. -/
theorem panics_reachable :
    ((modelregistry.ModelRegistryProcessor.FindModel (some ⟨some sample.sizeWithoutItems⟩)
        "my-model" none none).outcome = .panic .indexOutOfRange ∧
      (processor.ModelRegistryProcessor.FindModel (some ⟨some sample.sizeWithoutItems⟩)
        "my-model" none none).outcome = .panic .indexOutOfRange ∧
      (modelregistry.ModelRegistryProcessor.FindModel
        (some ⟨some sample.artifactSizeWithoutItems⟩) "my-model" (some "v1") none).outcome
        = .panic .indexOutOfRange ∧
      (processor.ModelRegistryProcessor.ProcessInferenceServiceStorage
        (some ⟨some sample.sizeWithoutItems⟩) (some ⟨"my-model", "/v1/art-42"⟩) [sample.isvc] 0
        sample.nname (some sample.continuation)).outcome = .panic .indexOutOfRange) ∧
    ((modelregistry.ModelRegistryProcessor.FindModel (some ⟨some sample.modelWithoutId⟩)
        "my-model" (some "v1") none).outcome = .panic .nilDereference ∧
      (processor.ModelRegistryProcessor.FindModel (some ⟨some sample.modelWithoutId⟩)
        "my-model" (some "v1") none).outcome = .panic .nilDereference ∧
      (modelregistry.ModelRegistryProcessor.FindModel (some ⟨some sample.versionWithoutId⟩)
        "my-model" (some "v1") none).outcome = .panic .nilDereference ∧
      (processor.ModelRegistryProcessor.FindModel (some ⟨some sample.versionWithoutId⟩)
        "my-model" (some "v1") none).outcome = .panic .nilDereference) ∧
    ((modelregistry.ModelRegistryProcessor.FindModel (some ⟨some sample.nilModel⟩)
        "my-model" (some "v1") none).outcome = .panic .nilDereference ∧
      (processor.ModelRegistryProcessor.FindModel (some ⟨some sample.nilModel⟩)
        "my-model" none none).outcome = .panic .nilDereference ∧
      (modelregistry.ModelRegistryProcessor.FindModel (some ⟨some sample.nilVersion⟩)
        "my-model" (some "v1") none).outcome = .panic .nilDereference ∧
      (processor.ModelRegistryProcessor.FindModel (some ⟨some sample.nilVersion⟩)
        "my-model" (some "v1") none).outcome = .panic .nilDereference ∧
      (modelregistry.ModelRegistryProcessor.FindModel (some ⟨some sample.nilVersionList⟩)
        "my-model" none none).outcome = .panic .nilDereference ∧
      (processor.ModelRegistryProcessor.FindModel (some ⟨some sample.nilVersionList⟩)
        "my-model" none none).outcome = .panic .nilDereference ∧
      (modelregistry.ModelRegistryProcessor.FindModel (some ⟨some sample.nilArtifactList⟩)
        "my-model" (some "v1") none).outcome = .panic .nilDereference ∧
      (processor.ModelRegistryProcessor.FindModel (some ⟨some sample.nilArtifactList⟩)
        "my-model" (some "v1") none).outcome = .panic .nilDereference ∧
      (processor.ModelRegistryProcessor.FindModel (some ⟨some sample.nilArtifact⟩)
        "my-model" (some "v1") (some "art-42")).outcome = .ret none ∧
      (processor.ModelRegistryProcessor.ProcessInferenceServiceStorage
        (some ⟨some sample.nilArtifact⟩) (some ⟨"my-model", "/v1/art-42"⟩) [sample.isvc] 0
        sample.nname (some sample.continuation)).outcome = .panic .nilDereference) ∧
    ((modelregistry.ModelRegistryProcessor.FindModel none "my-model" (some "v1") none).outcome
        = .panic .nilDereference ∧
      (processor.ModelRegistryProcessor.FindModel none "my-model" (some "v1") none).outcome
        = .panic .nilDereference ∧
      (modelregistry.ModelRegistryProcessor.FindModel (some ⟨none⟩) "my-model" (some "v1")
        none).outcome = .panic .nilDereference ∧
      (processor.ModelRegistryProcessor.FindModel (some ⟨none⟩) "my-model" (some "v1")
        none).outcome = .panic .nilDereference ∧
      (processor.ModelRegistryProcessor.ProcessInferenceServiceStorage (some ⟨none⟩)
        (some ⟨"my-model", "/v1"⟩) [sample.isvc] 0 sample.nname
        (some sample.continuation)).outcome = .panic .nilDereference) ∧
    ((processor.ModelRegistryProcessor.ProcessInferenceServiceStorage
        (some ⟨some sample.registry⟩) none [sample.isvc] 0 sample.nname
        (some sample.continuation)).outcome = .panic .nilDereference ∧
      (processor.ModelRegistryProcessor.ProcessInferenceServiceStorage
        (some ⟨some sample.registry⟩) (some ⟨"my-model", "/v1"⟩) [] 0 sample.nname
        (some sample.continuation)).outcome = .panic .nilDereference ∧
      (processor.ModelRegistryProcessor.ProcessInferenceServiceStorage
        (some ⟨some sample.modelArtifactFirst⟩) (some ⟨"my-model", "/v2"⟩)
        [sample.isvcWithoutModel] 0 sample.nname (some sample.continuation)).outcome
        = .panic .nilDereference ∧
      (processor.ModelRegistryProcessor.ProcessInferenceServiceStorage
        (some ⟨some sample.registry⟩) (some ⟨"my-model", "/v1"⟩) [sample.isvc] 0 sample.nname
        none).outcome = .panic .nilDereference) := by
  repeat' apply And.intro
  all_goals decide

/-- Claim C8 as amended: for a receiver with a client whose responses are coherent
(an answer with a nil error carries a record, every model and version record carries
an `Id`, every list with a non-zero `Size` has an item), a custom URI, a continuation
and a valid inference service pointer whose predictor has a model spec, both variants
of `FindModel` return a result or an error, and `ProcessInferenceServiceStorage`
returns its five results: no panic is reachable. -/
theorem no_panic_of_well_formed (client : APIClient) (hwf : client.WellFormed)
    (modelName : String) (versionName artifactId : Option String)
    (customUri : processor.URL) (heap : processor.Heap) (inferenceService : processor.Ptr)
    (nname : processor.NamespacedName)
    (k : processor.InferenceService → processor.NamespacedName → processor.StorageResult)
    (isvc : processor.InferenceService)
    (hp : heap[inferenceService]? = some isvc)
    (hms : isvc.Spec.Predictor.Model ≠ none) :
    (∀ q, (modelregistry.ModelRegistryProcessor.FindModel (some ⟨some client⟩) modelName
      versionName artifactId).outcome ≠ .panic q) ∧
    (∀ q, (processor.ModelRegistryProcessor.FindModel (some ⟨some client⟩) modelName
      versionName artifactId).outcome ≠ .panic q) ∧
    (∃ results heap',
      (processor.ModelRegistryProcessor.ProcessInferenceServiceStorage (some ⟨some client⟩)
        (some customUri) heap inferenceService nname (some k)).outcome
        = .ret (results, heap')) := by
  refine ⟨modelregistry.FindModel_no_panic client hwf modelName versionName artifactId,
    (processor.FindModel_total client hwf modelName versionName artifactId).1, ?_⟩
  obtain ⟨vn, aid, hparse⟩ := processor.parseCustomUri_ok customUri
  obtain ⟨ms, hms'⟩ := Option.ne_none_iff_exists'.1 hms
  rw [processor.Process_eq (some ⟨some client⟩) customUri heap inferenceService nname (some k)
    customUri.Host vn aid hparse]
  obtain ⟨hnp, hnn⟩ := processor.FindModel_total client hwf customUri.Host vn aid
  cases hfound : (processor.ModelRegistryProcessor.FindModel (some ⟨some client⟩)
      customUri.Host vn aid).outcome with
  | panic q => exact absurd hfound (hnp q)
  | fail e => exact ⟨_, _, rfl⟩
  | ret ptr =>
    cases ptr with
    | none => exact absurd hfound hnn
    | some A =>
      rw [processor.forward_ret A customUri.Host heap inferenceService nname k isvc ms hp hms']
      exact ⟨_, _, rfl⟩

/-- The responses of the sample registry are coherent. -/
theorem sample.registry_wellFormed : sample.registry.WellFormed := by
  refine ⟨?_, ?_, ?_, ?_, ?_, ?_, ?_, ?_, ?_⟩
  · intro name h
    simp only [sample.registry] at h
    split at h <;> cases h
  · intro name parent h
    simp only [sample.registry] at h
    split at h
    · cases h
    · split at h
      · cases h
      · split at h <;> cases h
  · intro id orderBy sortOrder h
    simp only [sample.registry] at h
    split at h <;> cases h
  · intro id h
    simp only [sample.registry] at h
    split at h <;> cases h
  · intro id orderBy sortOrder h
    simp only [sample.registry] at h
    cases h
  · intro name model h
    simp only [sample.registry] at h
    split at h
    · cases h; simp [sample.model]
    · cases h
  · intro name parent version h
    simp only [sample.registry] at h
    split at h
    · cases h; simp [sample.v1]
    · split at h
      · cases h; simp [sample.v2]
      · split at h
        · cases h; simp [sample.v3]
        · cases h
  · intro id orderBy sortOrder versions h
    simp only [sample.registry] at h
    split at h
    · cases h; simp [sample.v1, sample.v2, sample.v3]
    · cases h
  · intro id orderBy sortOrder artifacts h
    simp only [sample.registry] at h
    cases h
    simp

/-- Claim C8 as amended, at the sample registry and the URI
model-registry://my-model/v1: the results of the continuation are returned. -/
theorem no_panic_of_well_formed_witness :
    sample.registry.WellFormed ∧
    ∃ results heap',
      (processor.ModelRegistryProcessor.ProcessInferenceServiceStorage
        (some ⟨some sample.registry⟩) (some ⟨"my-model", "/v1"⟩) [sample.isvc] 0 sample.nname
        (some sample.continuation)).outcome = .ret (results, heap') :=
  ⟨sample.registry_wellFormed,
   (no_panic_of_well_formed sample.registry sample.registry_wellFormed "my-model" (some "v1")
      none ⟨"my-model", "/v1"⟩ [sample.isvc] 0 sample.nname sample.continuation sample.isvc
      rfl (by decide)).2.2⟩

/-! ## Configuration from the environment -/

/-- Claim C9 as stated fails: with MODEL_REGISTRY_SCHEME set to "http" the value
returned is the default value although the key is set, and the client has the default
host and scheme although not both variables are unset. -/
theorem getEnvString_default_not_only_when_unset :
    ¬ (∀ (env : Environ) (key defaultValue : String),
        processor.getEnvString env key defaultValue = defaultValue ↔ env key = none) ∧
    ¬ (∀ (env : Environ) (key defaultValue : String),
        modelregistry.getEnvString env key defaultValue = defaultValue ↔ env key = none) ∧
    ¬ (∀ env : Environ,
        ((processor.NewModelRegistryProcessorFromEnv env).Host =
            "modelregistry-sample.model-registry.svc.cluster.local:8080" ∧
          (processor.NewModelRegistryProcessorFromEnv env).Scheme = "http") ↔
        (env "MODEL_REGISTRY_BASE_URL" = none ∧ env "MODEL_REGISTRY_SCHEME" = none)) := by
  refine ⟨fun h => ?_, fun h => ?_, fun h => ?_⟩
  · exact absurd ((h sample.schemeSetToHttp "MODEL_REGISTRY_SCHEME" "http").1 (by decide))
      (by decide)
  · exact absurd ((h sample.schemeSetToHttp "MODEL_REGISTRY_SCHEME" "http").1 (by decide))
      (by decide)
  · exact absurd ((h sample.schemeSetToHttp).1 (by decide)).2 (by decide)

/-- Claim C9 as amended: `getEnvString` returns the value of the variable verbatim when
the key is set, the empty string included, and the default value when the key is
unset; so it returns the default value if and only if the key is unset or set to the
default value itself; hence the client built by `NewModelRegistryProcessorFromEnv` has
the default host and the scheme "http" when MODEL_REGISTRY_BASE_URL and
MODEL_REGISTRY_SCHEME are unset, and only when each is unset or set to its default. -/
theorem getEnvString_spec (env : Environ) (key defaultValue : String) :
    (∀ val, env key = some val →
      processor.getEnvString env key defaultValue = val ∧
      modelregistry.getEnvString env key defaultValue = val) ∧
    (env key = none →
      processor.getEnvString env key defaultValue = defaultValue ∧
      modelregistry.getEnvString env key defaultValue = defaultValue) ∧
    (processor.getEnvString env key defaultValue = defaultValue ↔
      env key = none ∨ env key = some defaultValue) ∧
    (modelregistry.getEnvString env key defaultValue = defaultValue ↔
      env key = none ∨ env key = some defaultValue) ∧
    (env "MODEL_REGISTRY_BASE_URL" = none ∧ env "MODEL_REGISTRY_SCHEME" = none →
      (processor.NewModelRegistryProcessorFromEnv env).Host =
          "modelregistry-sample.model-registry.svc.cluster.local:8080" ∧
        (processor.NewModelRegistryProcessorFromEnv env).Scheme = "http") ∧
    (((processor.NewModelRegistryProcessorFromEnv env).Host =
          "modelregistry-sample.model-registry.svc.cluster.local:8080" ∧
        (processor.NewModelRegistryProcessorFromEnv env).Scheme = "http") ↔
      (env "MODEL_REGISTRY_BASE_URL" = none ∨ env "MODEL_REGISTRY_BASE_URL" =
          some "modelregistry-sample.model-registry.svc.cluster.local:8080") ∧
        (env "MODEL_REGISTRY_SCHEME" = none ∨ env "MODEL_REGISTRY_SCHEME" = some "http")) := by
  have key_iff : ∀ (k d : String),
      processor.getEnvString env k d = d ↔ env k = none ∨ env k = some d := by
    intro k d
    unfold processor.getEnvString
    cases env k <;> simp
  refine ⟨?_, ?_, key_iff key defaultValue, ?_, ?_, ?_⟩
  · intro val h
    simp [processor.getEnvString, modelregistry.getEnvString, h]
  · intro h
    simp [processor.getEnvString, modelregistry.getEnvString, h]
  · unfold modelregistry.getEnvString
    cases env key <;> simp
  · rintro ⟨h1, h2⟩
    simp [processor.NewModelRegistryProcessorFromEnv, processor.getEnvString,
      processor.modelRegistryBaseUrl, processor.modelRegistryScheme,
      processor.defaultModelRegistryBaseUrl, processor.defaultModelRegistryScheme, h1, h2]
  · simp only [processor.NewModelRegistryProcessorFromEnv, processor.modelRegistryBaseUrl,
      processor.modelRegistryScheme, processor.defaultModelRegistryBaseUrl,
      processor.defaultModelRegistryScheme, key_iff]

/-- Claim C9 as amended, at an environment where MODEL_REGISTRY_BASE_URL is set to the
empty string, where the host is the empty string and not the default, and at the empty
environment, where host and scheme are the defaults. -/
theorem getEnvString_spec_witness :
    sample.hostSetToEmpty "MODEL_REGISTRY_BASE_URL" = some "" ∧
    processor.getEnvString sample.hostSetToEmpty "MODEL_REGISTRY_BASE_URL"
      "modelregistry-sample.model-registry.svc.cluster.local:8080" = "" ∧
    (processor.NewModelRegistryProcessorFromEnv sample.noEnv).Host =
      "modelregistry-sample.model-registry.svc.cluster.local:8080" ∧
    (processor.NewModelRegistryProcessorFromEnv sample.noEnv).Scheme = "http" :=
  ⟨by decide,
   ((getEnvString_spec sample.hostSetToEmpty "MODEL_REGISTRY_BASE_URL"
      "modelregistry-sample.model-registry.svc.cluster.local:8080").1 "" (by decide)).1,
   (getEnvString_spec sample.noEnv "MODEL_REGISTRY_BASE_URL" "").2.2.2.2.1 ⟨rfl, rfl⟩⟩
